import Mathlib

/-!
# Bending Light: circle intersection, meter readings

A shallow embedding of `js/prisms/model/Circle.js`, `js/common/model/Reading.js` and
`js/common/model/Substance.js`.
Numbers are elements of a linearly ordered field `K`; `Math.sqrt` is a
parameter `sqrt : K → K` whose contract is `IsSqrt`.  Operations that can
throw return `Except String _`.
-/

namespace BendingLight

/-! ## Library values used by the model files -/

/-- Modelled from the spec: DOT `Vector2` (not under src/), the "2D points,
directions" primitive of the spec: a pair of coordinates. -/
structure Vector2 (K : Type) where
  x : K
  y : K

/-- Modelled from the spec: DOT `Ray2` (not under src/), a position and a direction. -/
structure Ray2 (K : Type) where
  position : Vector2 K
  direction : Vector2 K

/-- Modelled from the spec: the record KITE's `Shape.intersection` delivers for one
crossing (not under src/); `Circle.getIntersections` reads its `point` only. -/
structure RayIntersection (K : Type) where
  point : Vector2 K

/-- Modelled from the spec: `BENDING_LIGHT/prisms/model/Intersection` (not under
src/), "immutable value: hit point + unit normal", built as
`new Intersection( unitNormal, point )`. -/
structure Intersection (K : Type) where
  unitNormal : Vector2 K
  point : Vector2 K

/-- The part of the light ray `Circle.getIntersections` reads: `ray.tail` and
`ray.directionUnitVector`. -/
structure Ray (K : Type) where
  tail : Vector2 K
  directionUnitVector : Vector2 K

/-- `Circle( center, radius )`: the constructor stores both and builds `shape`,
the full elliptical arc with both radii `radius` about `center`. -/
structure Circle (K : Type) where
  center : Vector2 K
  radius : K

section Defs

variable {K : Type} [LinearOrderedField K]

namespace Vector2

/-- Modelled from the spec: DOT `Vector2.minus` (not under src/), `a.minus( b )`. -/
def minus (a b : Vector2 K) : Vector2 K := ⟨a.x - b.x, a.y - b.y⟩

/-- Modelled from the spec: DOT `Vector2.plusXY` (not under src/), `a.plusXY( dx, dy )`. -/
def plusXY (a : Vector2 K) (dx dy : K) : Vector2 K := ⟨a.x + dx, a.y + dy⟩

/-- Modelled from the spec: DOT `Vector2.dot` (not under src/), the dot product. -/
def dot (a b : Vector2 K) : K := a.x * b.x + a.y * b.y

/-- Modelled from the spec: DOT `Vector2.negate` (not under src/), `a.negate()`. -/
def negate (a : Vector2 K) : Vector2 K := ⟨-a.x, -a.y⟩

/-- Modelled from the spec: DOT `Vector2.timesScalar` (not under src/). -/
def timesScalar (a : Vector2 K) (s : K) : Vector2 K := ⟨a.x * s, a.y * s⟩

/-- Modelled from the spec: DOT `Vector2.plus` (not under src/), `a.plus( b )`. -/
def plus (a b : Vector2 K) : Vector2 K := ⟨a.x + b.x, a.y + b.y⟩

/-- Modelled from the spec: DOT `Vector2.divideScalar` (not under src/). -/
def divideScalar (a : Vector2 K) (s : K) : Vector2 K := ⟨a.x / s, a.y / s⟩

/-- Modelled from the spec: DOT `Vector2.magnitudeSquared` (not under src/). -/
def magnitudeSquared (a : Vector2 K) : K := a.x * a.x + a.y * a.y

/-- Modelled from the spec: DOT `Vector2.magnitude` (not under src/):
`Math.sqrt( x * x + y * y )`. -/
def magnitude (sqrt : K → K) (a : Vector2 K) : K := sqrt (magnitudeSquared a)

/-- Modelled from the spec: DOT `Vector2.distance` (not under src/): the magnitude of
the difference. -/
def distance (sqrt : K → K) (a b : Vector2 K) : K := magnitude sqrt (minus a b)

/-- Modelled from the spec: DOT `Vector2.normalize` (not under src/), "normalization":
divides by the magnitude and throws on a zero magnitude. -/
def normalize (sqrt : K → K) (a : Vector2 K) : Except String (Vector2 K) :=
  let mag := magnitude sqrt a
  if mag = 0 then .error "Cannot normalize a zero-magnitude vector"
  else .ok (divideScalar a mag)

end Vector2

/-- Modelled from the spec: DOT `Ray2.pointAtDistance` (not under src/), the ray's
parametric equation `position + direction * t`. -/
def Ray2.pointAtDistance (ray : Ray2 K) (t : K) : Vector2 K :=
  ray.position.plus (ray.direction.timesScalar t)

/-- The contract of `Math.sqrt` on non-negative numbers. -/
def IsSqrt (sqrt : K → K) : Prop :=
  ∀ x : K, 0 ≤ x → 0 ≤ sqrt x ∧ sqrt x * sqrt x = x

/-! ## `Circle.js` -/

namespace Circle

/-- `getTranslatedInstance( deltaX, deltaY )`. -/
def getTranslatedInstance (self : Circle K) (deltaX deltaY : K) : Circle K :=
  ⟨self.center.plusXY deltaX deltaY, self.radius⟩

/-- `containsPoint( point )`: `point.distance( this.center ) <= this.radius`. -/
def containsPoint (sqrt : K → K) (self : Circle K) (point : Vector2 K) : Bool :=
  decide (Vector2.distance sqrt point self.center ≤ self.radius)

/-- The `forEach` of `getIntersections` (lines 56-71) over what is left of
`intersectionArray`, with `intersectionList` as built so far; a throw of
`normalize` ends the call. -/
def getIntersectionsLoop (sqrt : K → K) (self : Circle K) (ray : Ray K) :
    List (Option (RayIntersection K)) → List (Intersection K) →
      Except String (List (Intersection K))
  | [], intersectionList => .ok intersectionList
  | none :: rest, intersectionList => getIntersectionsLoop sqrt self ray rest intersectionList
  | some intersectionPoint :: rest, intersectionList =>
    if (intersectionPoint.point.x - ray.tail.x) * ray.directionUnitVector.x +
        (intersectionPoint.point.y - ray.tail.y) * ray.directionUnitVector.y > 0 then
      match (intersectionPoint.point.minus self.center).normalize sqrt with
      | .error e => .error e
      | .ok normalVector =>
        let normalVector :=
          if normalVector.dot ray.directionUnitVector > 0 then normalVector.negate
          else normalVector
        getIntersectionsLoop sqrt self ray rest
          (intersectionList ++ [Intersection.mk normalVector intersectionPoint.point])
    else getIntersectionsLoop sqrt self ray rest intersectionList

/-- Lines 54-72 of `getIntersections`, for a given `intersectionArray` (what
`this.shape.intersection( new Ray2( ray.tail, ray.directionUnitVector ) )` delivered). -/
def getIntersectionsFrom (sqrt : K → K) (self : Circle K) (ray : Ray K)
    (intersectionArray : List (Option (RayIntersection K))) :
    Except String (List (Intersection K)) :=
  getIntersectionsLoop sqrt self ray intersectionArray []

/-- Modelled from the spec: KITE's `Shape.intersection` on the circle's `shape`
(KITE is not under src/). "Solve the quadratic formed by substituting the ray's
parametric equation into `|P − center|² = radius²`", deliver the crossings in the
order of the ray's parameter, and deliver "the degenerate double root once". -/
def shapeIntersection (sqrt : K → K) (self : Circle K) (ray : Ray2 K) :
    List (Option (RayIntersection K)) :=
  let a := ray.direction.dot ray.direction
  let b := 2 * ray.direction.dot (ray.position.minus self.center)
  let c := (ray.position.minus self.center).magnitudeSquared - self.radius * self.radius
  let discriminant := b * b - 4 * a * c
  if discriminant < 0 then []
  else if discriminant = 0 then
    [some ⟨ray.pointAtDistance (-b / (2 * a))⟩]
  else
    [some ⟨ray.pointAtDistance ((-b - sqrt discriminant) / (2 * a))⟩,
     some ⟨ray.pointAtDistance ((-b + sqrt discriminant) / (2 * a))⟩]

/-- `getIntersections( ray )`. -/
def getIntersections (sqrt : K → K) (self : Circle K) (ray : Ray K) :
    Except String (List (Intersection K)) :=
  getIntersectionsFrom sqrt self ray
    (shapeIntersection sqrt self (Ray2.mk ray.tail ray.directionUnitVector))

/-- The forward test of lines 62-63 on a delivered point. -/
def isAhead (ray : Ray K) (point : Vector2 K) : Prop :=
  (point.x - ray.tail.x) * ray.directionUnitVector.x +
    (point.y - ray.tail.y) * ray.directionUnitVector.y > 0

instance (ray : Ray K) (point : Vector2 K) : Decidable (isAhead ray point) := by
  unfold isAhead; infer_instance

/-- The record lines 64-68 push for a delivered point whose difference from the
center has a non-zero magnitude. -/
def intersectionAt (sqrt : K → K) (self : Circle K) (ray : Ray K) (point : Vector2 K) :
    Intersection K :=
  let normalVector :=
    (point.minus self.center).divideScalar (Vector2.magnitude sqrt (point.minus self.center))
  ⟨if normalVector.dot ray.directionUnitVector > 0 then normalVector.negate else normalVector,
    point⟩

/-- The points of `intersectionArray` that pass the null test and the forward test,
in the order of the array. -/
def keptPoints (ray : Ray K) (intersectionArray : List (Option (RayIntersection K))) :
    List (Vector2 K) :=
  ((intersectionArray.filterMap id).map RayIntersection.point).filter
    (fun p => decide (isAhead ray p))

/-- The line through the ray touches the circle: the distance from the center to
the line is the radius, written without division or square root. -/
def isTangentRay (self : Circle K) (ray : Ray K) : Prop :=
  (ray.directionUnitVector.x * (ray.tail.y - self.center.y) -
      ray.directionUnitVector.y * (ray.tail.x - self.center.x)) ^ 2 =
    ray.directionUnitVector.magnitudeSquared * (self.radius * self.radius)

/-- The leading coefficient of the quadratic `shapeIntersection` solves. -/
def quadA (ray : Ray K) : K := ray.directionUnitVector.dot ray.directionUnitVector

/-- The linear coefficient of the quadratic `shapeIntersection` solves. -/
def quadB (self : Circle K) (ray : Ray K) : K :=
  2 * ray.directionUnitVector.dot (ray.tail.minus self.center)

/-- The constant coefficient of the quadratic `shapeIntersection` solves. -/
def quadC (self : Circle K) (ray : Ray K) : K :=
  (ray.tail.minus self.center).magnitudeSquared - self.radius * self.radius

/-- The discriminant of the quadratic `shapeIntersection` solves. -/
def discriminant (self : Circle K) (ray : Ray K) : K :=
  quadB self ray * quadB self ray - 4 * quadA ray * quadC self ray

/-- The point of the ray at parameter `t`: `tail + t · directionUnitVector`. -/
def pointAt (ray : Ray K) (t : K) : Vector2 K :=
  (Ray2.mk ray.tail ray.directionUnitVector).pointAtDistance t

end Circle

end Defs

/-! ## `Reading.js` -/

/-- A value the intensity meter shows: `new Reading( value )`, whose `value` field is
public read-only, or the static object `Reading.MISS`, which has the two methods and
no field. -/
inductive Reading (K : Type) where
  | mk (value : K)
  | MISS

/-- `isHit()`: `true` on a `Reading`, `false` on `Reading.MISS`. -/
def Reading.isHit {K : Type} : Reading K → Bool
  | .mk _ => true
  | .MISS => false

/-- `VALUE_DECIMALS`. -/
def VALUE_DECIMALS : ℕ := 2

/-- Modelled from the spec: the string `pattern_0value_percent` (the string files are
not under src/), a placeholder for the value followed by the percent sign, as in the
spec's `"87.00%"`. -/
def valuePercentChars : List Char := [Char.ofNat 123, '0', Char.ofNat 125, '%']

/-- Modelled from the spec: PHETCOMMON `StringUtils.format( pattern, arg )` (not under
src/), on character lists: every placeholder of index 0 in the pattern is replaced by
the argument. -/
def StringUtils.formatChars (arg : List Char) : List Char → List Char
  | [] => []
  | a :: b :: c :: rest =>
    if a = Char.ofNat 123 ∧ b = '0' ∧ c = Char.ofNat 125 then
      arg ++ StringUtils.formatChars arg rest
    else a :: StringUtils.formatChars arg (b :: c :: rest)
  | a :: tail => a :: StringUtils.formatChars arg tail

/-- Modelled from the spec: DOT `Util.toFixed( number, decimalPlaces )` (not under
src/), "two-decimal formatting", on character lists: the number is scaled by
`10 ^ decimalPlaces` and rounded to the nearest integer (a half goes up, as
`Math.round` does), then written as a sign, the decimal digits of the integer part, a
point and exactly `decimalPlaces` digits. -/
def Util.toFixedChars (number : ℚ) (decimalPlaces : ℕ) : List Char :=
  let scaled : ℤ := ⌊number * 10 ^ decimalPlaces + 1 / 2⌋
  let sign : List Char := if scaled < 0 then ['-'] else []
  let integerDigits := Nat.toDigits 10 (scaled.natAbs / 10 ^ decimalPlaces)
  let fractionDigits :=
    (List.range decimalPlaces).reverse.map (fun k => Nat.digitChar (scaled.natAbs / 10 ^ k % 10))
  sign ++ integerDigits ++ (if decimalPlaces = 0 then [] else '.' :: fractionDigits)

/-- `format( value )`:
`StringUtils.format( valuePercentString, Util.toFixed( value, VALUE_DECIMALS ) )`. -/
def Reading.format (value : ℚ) : String :=
  String.mk (StringUtils.formatChars (Util.toFixedChars value VALUE_DECIMALS) valuePercentChars)

/-- `getString()`: `this.format( this.value * 100 )` on a `Reading`, and the string
`miss` (a string file not under src/, a parameter here) on `Reading.MISS`. -/
def Reading.getString (missString : String) : Reading ℚ → String
  | .mk value => Reading.format (value * 100)
  | .MISS => missString

/-- The `value` field read off an object the meter shows: a `Reading` holds the one
its constructor stored, `Reading.MISS` has no such field. -/
def Reading.value? {K : Type} : Reading K → Option K
  | .mk value => some value
  | .MISS => none

/-! ## Constructors as calls that may throw -/

section Constructors

variable {K : Type} [LinearOrderedField K]

/-- The constructor `Circle( center, radius )`, lines 24-31, as a call that either
throws or produces the object: it stores `center` and `radius` and builds `shape`, and
no statement of it tests its arguments or throws. -/
def Circle.new (center : Vector2 K) (radius : K) : Except String (Circle K) :=
  .ok ⟨center, radius⟩

end Constructors

/-! ## `Substance.js` -/

section SubstanceDefs

variable {K : Type} [LinearOrderedField K]

/-- Modelled from the spec: `BendingLightConstants.WAVELENGTH_RED` (not under src/),
the "reference wavelength 650 nm", in nanometres. -/
def WAVELENGTH_RED : K := 650

/-- Modelled from the spec: the state of `BENDING_LIGHT/common/model/DispersionFunction`
(not under src/), built as `new DispersionFunction( indexForRed, wavelength )`: the
"stored `indexForRed`" and the reference wavelength it belongs to. -/
structure DispersionFunction (K : Type) where
  referenceIndexOfRefraction : K
  referenceWavelength : K

/-- Modelled from the spec: the constructor of `DispersionFunction` (not under src/) as
a call that either throws or produces the object. "Configuration error (degenerate
shape, non-physical index < 1): rejected at construction time": a reference index
below 1 is rejected, any other is stored with the reference wavelength. -/
def DispersionFunction.new (referenceIndexOfRefraction wavelength : K) :
    Except String (DispersionFunction K) :=
  if referenceIndexOfRefraction < 1 then .error "Configuration error: index of refraction below 1"
  else .ok ⟨referenceIndexOfRefraction, wavelength⟩

/-- Modelled from the spec: `DispersionFunction.getIndexOfRefraction( wavelength )` (not
under src/), "a two-term model calibrated so that the index at reference wavelength
650 nm equals the stored `indexForRed`": the two-term Cauchy form `A + B / λ²`, with
the dispersion coefficient `B` given and `A` fixed by the calibration. -/
def DispersionFunction.getIndexOfRefraction (cauchyB : K) (self : DispersionFunction K)
    (wavelength : K) : K :=
  let cauchyA := self.referenceIndexOfRefraction -
    cauchyB / (self.referenceWavelength * self.referenceWavelength)
  cauchyA + cauchyB / (wavelength * wavelength)

/-- The state of a `Substance`: the four fields the constructor assigns. -/
structure Substance (K : Type) where
  name : String
  dispersionFunction : DispersionFunction K
  mystery : Bool
  custom : Bool

/-- The constructor `Substance( name, indexForRed, mystery, custom )`, lines 24-29, as a
call that either throws or produces the object, for a given constructor of
`DispersionFunction`: its only call is
`new DispersionFunction( indexForRed, BendingLightConstants.WAVELENGTH_RED )`, and no
statement of it tests `indexForRed` or throws. -/
def Substance.newWith
    (newDispersionFunction : K → K → Except String (DispersionFunction K))
    (name : String) (indexForRed : K) (mystery custom : Bool) :
    Except String (Substance K) :=
  match newDispersionFunction indexForRed (WAVELENGTH_RED : K) with
  | .error e => .error e
  | .ok dispersionFunction => .ok ⟨name, dispersionFunction, mystery, custom⟩

/-- The constructor `Substance( name, indexForRed, mystery, custom )` with the
constructor of `DispersionFunction` as modelled from the spec. -/
def Substance.new (name : String) (indexForRed : K) (mystery custom : Bool) :
    Except String (Substance K) :=
  Substance.newWith DispersionFunction.new name indexForRed mystery custom

/-- `getIndexOfRefractionForRedLight()`:
`this.dispersionFunction.getIndexOfRefraction( BendingLightConstants.WAVELENGTH_RED )`. -/
def Substance.getIndexOfRefractionForRedLight (cauchyB : K) (self : Substance K) : K :=
  self.dispersionFunction.getIndexOfRefraction cauchyB (WAVELENGTH_RED : K)

end SubstanceDefs

/-! ## `Vector2` objects and the methods of `Circle.js` that work on them

`center` is a reference to a `Vector2` object, and `getRotatedInstance` calls the
mutating methods `subtract`, `rotate` and `add` of DOT on what `getRotationCenter`
returns. The objects are kept in an explicit store. -/

section Objects

variable {K : Type} [LinearOrderedField K]

/-- The `Vector2` objects of a program state: the value each reference holds, and the
first reference not yet in use. -/
structure Heap (K : Type) where
  vec : ℕ → Vector2 K
  next : ℕ

/-- Assignment to the coordinates of an existing object (`setXY` of DOT). -/
def Heap.write (h : Heap K) (ref : ℕ) (v : Vector2 K) : Heap K :=
  ⟨Function.update h.vec ref v, h.next⟩

/-- Creation of an object, `new Vector2( x, y )`: the store after it and the new
reference. -/
def Heap.alloc (h : Heap K) (v : Vector2 K) : Heap K × ℕ :=
  (⟨Function.update h.vec h.next v, h.next + 1⟩, h.next)

/-- Modelled from the spec: DOT `Vector2.rotated( angle )` (not under src/), the
spec's "rotation" of a vector, with `Math.cos` and `Math.sin` as parameters. -/
def Vector2.rotated (cos sin : K → K) (v : Vector2 K) (angle : K) : Vector2 K :=
  ⟨v.x * cos angle - v.y * sin angle, v.x * sin angle + v.y * cos angle⟩

/-- DOT `Vector2.subtract( v )` (library, not under src/): the mutating form of `minus`.
It sets this vector to `this − v` and returns this vector. -/
def Heap.subtract (h : Heap K) (self v : ℕ) : Heap K × ℕ :=
  (h.write self ((h.vec self).minus (h.vec v)), self)

/-- DOT `Vector2.rotate( angle )` (library, not under src/): the mutating form of
`rotated`. It sets this vector to its rotation by `angle` and returns this vector. -/
def Heap.rotate (cos sin : K → K) (h : Heap K) (self : ℕ) (angle : K) : Heap K × ℕ :=
  (h.write self ((h.vec self).rotated cos sin angle), self)

/-- DOT `Vector2.add( v )` (library, not under src/): the mutating form of `plus`.
It sets this vector to `this + v` and returns this vector. -/
def Heap.add (h : Heap K) (self v : ℕ) : Heap K × ℕ :=
  (h.write self ((h.vec self).plus (h.vec v)), self)

/-- DOT `Vector2.plusXY( dx, dy )` (library, not under src/) on objects: it creates a
new vector and leaves this vector as it is. -/
def Heap.plusXY (h : Heap K) (self : ℕ) (dx dy : K) : Heap K × ℕ :=
  h.alloc ((h.vec self).plusXY dx dy)

/-- A `Circle` object: its `center` field is a reference to a `Vector2` object, its
`radius` field a number; neither field is assigned after the constructor. -/
structure CircleObject (K : Type) where
  center : ℕ
  radius : K

namespace CircleObject

/-- The center and radius a circle object has in a program state. -/
def value (h : Heap K) (self : CircleObject K) : Circle K :=
  ⟨h.vec self.center, self.radius⟩

/-- `getRotationCenter()`: `return this.center`, the reference itself. -/
def getRotationCenter (self : CircleObject K) : ℕ := self.center

/-- `getRotatedInstance( angle, rotationPoint )`, lines 82-88: the program state after
the call and the circle returned. -/
def getRotatedInstance (cos sin : K → K) (h : Heap K) (self : CircleObject K) (angle : K)
    (rotationPoint : ℕ) : Heap K × CircleObject K :=
  let vectorAboutCentroid := h.subtract self.getRotationCenter rotationPoint
  let rotated := Heap.rotate cos sin vectorAboutCentroid.1 vectorAboutCentroid.2 angle
  let sum := rotated.1.add rotated.2 rotationPoint
  (sum.1, ⟨sum.2, self.radius⟩)

/-- `getTranslatedInstance( deltaX, deltaY )`, lines 42-44, on objects: the program
state after the call and the circle returned. -/
def getTranslatedInstance (h : Heap K) (self : CircleObject K) (deltaX deltaY : K) :
    Heap K × CircleObject K :=
  let center := h.plusXY self.center deltaX deltaY
  (center.1, ⟨center.2, self.radius⟩)

end CircleObject

end Objects

/-! ## Translated values -/

section Translated

variable {K : Type} [LinearOrderedField K]

/-- A ray with its tail shifted by `(dx, dy)` and its direction unchanged. -/
def Ray.translated (ray : Ray K) (dx dy : K) : Ray K :=
  ⟨ray.tail.plusXY dx dy, ray.directionUnitVector⟩

/-- A delivered crossing with its point shifted by `(dx, dy)`. -/
def RayIntersection.translated (ip : RayIntersection K) (dx dy : K) : RayIntersection K :=
  ⟨ip.point.plusXY dx dy⟩

/-- An intersection with its point shifted by `(dx, dy)` and its normal unchanged. -/
def Intersection.translated (i : Intersection K) (dx dy : K) : Intersection K :=
  ⟨i.unitNormal, i.point.plusXY dx dy⟩

end Translated

/-! ## `WaveWebGLNode.js` -/

section WaveDefs

variable {K : Type} [LinearOrderedField K]

/-- The numbers the layout computation of `paintWebGLDrawable` (lines 113-139) leaves
in its local variables. -/
structure WaveLayout (K : Type) where
  navigationBarHeightInWindowCoordinates : K
  screenHeight : K
  scale : K
  widthOffset : K
  heightOffset : K

/-- Lines 115-139 of `paintWebGLDrawable`, for `window.innerWidth`,
`window.innerHeight`, `this.layoutWidth` and `this.layoutHeight`. -/
def WaveWebGLNode.layout (innerWidth innerHeight layoutWidth layoutHeight : K) :
    WaveLayout K :=
  let navigationBarHeight : K := 40
  let navigationBarScale := min (innerWidth / layoutWidth) (innerHeight / layoutHeight)
  let navigationBarHeightInWindowCoordinates := navigationBarHeight * navigationBarScale
  let screenHeight := innerHeight - navigationBarHeightInWindowCoordinates
  let scale := min (innerWidth / layoutWidth) (screenHeight / layoutHeight)
  if scale = innerWidth / layoutWidth then
    let distanceBetweenNavigationBarTopAndDevArea := (screenHeight - layoutHeight * scale) / 2
    ⟨navigationBarHeightInWindowCoordinates, screenHeight, scale, 0,
      distanceBetweenNavigationBarTopAndDevArea + navigationBarHeightInWindowCoordinates⟩
  else
    ⟨navigationBarHeightInWindowCoordinates, screenHeight, scale,
      (innerWidth - layoutWidth * scale) / 2, navigationBarHeightInWindowCoordinates⟩

end WaveDefs

/-! ## Square roots -/

section Sqrt

variable {K : Type} [LinearOrderedField K] {sqrt : K → K}

theorem IsSqrt.nonneg (hs : IsSqrt sqrt) {x : K} (hx : 0 ≤ x) : 0 ≤ sqrt x := (hs x hx).1

theorem IsSqrt.mul_self (hs : IsSqrt sqrt) {x : K} (hx : 0 ≤ x) : sqrt x * sqrt x = x :=
  (hs x hx).2

theorem IsSqrt.sqrt_mul_self (hs : IsSqrt sqrt) {y : K} (hy : 0 ≤ y) : sqrt (y * y) = y := by
  have h0 : (0 : K) ≤ y * y := mul_self_nonneg y
  have h1 := hs.nonneg h0
  have h2 := hs.mul_self h0
  nlinarith [mul_self_nonneg (sqrt (y * y) - y)]

theorem IsSqrt.eq_zero_iff (hs : IsSqrt sqrt) {x : K} (hx : 0 ≤ x) : sqrt x = 0 ↔ x = 0 := by
  constructor
  · intro h
    have := hs.mul_self hx
    rw [h] at this
    simpa using this.symm
  · intro h
    subst h
    have := hs.sqrt_mul_self (le_refl (0 : K))
    simpa using this

theorem IsSqrt.pos (hs : IsSqrt sqrt) {x : K} (hx : 0 < x) : 0 < sqrt x := by
  rcases (hs.nonneg hx.le).lt_or_eq with h | h
  · exact h
  · exact absurd ((hs.eq_zero_iff hx.le).1 h.symm) hx.ne'

theorem IsSqrt.lt (hs : IsSqrt sqrt) {x y : K} (hx : 0 ≤ x) (hxy : x < y) :
    sqrt x < sqrt y := by
  by_contra hcon
  have hle : sqrt y ≤ sqrt x := not_lt.1 hcon
  have hy0 := hs.nonneg (hx.trans hxy.le)
  have h1 := hs.mul_self hx
  have h2 := hs.mul_self (hx.trans hxy.le)
  nlinarith [mul_self_le_mul_self hy0 hle]

theorem isSqrt_real : IsSqrt Real.sqrt :=
  fun x hx => ⟨Real.sqrt_nonneg x, Real.mul_self_sqrt hx⟩

end Sqrt


/-! ## The loop of `getIntersections` as a list function -/

section Loop

variable {K : Type} [LinearOrderedField K] (sqrt : K → K) (self : Circle K) (ray : Ray K)

theorem Circle.keptPoints_nil : Circle.keptPoints ray ([] : List (Option (RayIntersection K))) = [] :=
  rfl

theorem Circle.keptPoints_none (rest : List (Option (RayIntersection K))) :
    Circle.keptPoints ray (none :: rest) = Circle.keptPoints ray rest := by
  simp [Circle.keptPoints]

theorem Circle.keptPoints_some_ahead (ip : RayIntersection K)
    (rest : List (Option (RayIntersection K))) (h : Circle.isAhead ray ip.point) :
    Circle.keptPoints ray (some ip :: rest) = ip.point :: Circle.keptPoints ray rest := by
  simp [Circle.keptPoints, h]

theorem Circle.keptPoints_some_behind (ip : RayIntersection K)
    (rest : List (Option (RayIntersection K))) (h : ¬ Circle.isAhead ray ip.point) :
    Circle.keptPoints ray (some ip :: rest) = Circle.keptPoints ray rest := by
  simp [Circle.keptPoints, h]

/-- The loop returns a list exactly when no kept point coincides in magnitude with
the zero vector, and the list is then the records of the kept points, in order,
after what was already pushed. -/
theorem Circle.getIntersectionsLoop_ok_iff (arr : List (Option (RayIntersection K)))
    (acc l : List (Intersection K)) :
    Circle.getIntersectionsLoop sqrt self ray arr acc = .ok l ↔
      (∀ p ∈ Circle.keptPoints ray arr, Vector2.magnitude sqrt (p.minus self.center) ≠ 0) ∧
        l = acc ++ (Circle.keptPoints ray arr).map (Circle.intersectionAt sqrt self ray) := by
  induction arr generalizing acc with
  | nil =>
    simp only [Circle.getIntersectionsLoop, Circle.keptPoints_nil, List.map_nil, List.append_nil,
      List.not_mem_nil, false_imp_iff, implies_true, true_and, Except.ok.injEq]
    exact eq_comm
  | cons head rest ih =>
    cases head with
    | none =>
      rw [Circle.getIntersectionsLoop, Circle.keptPoints_none]
      exact ih acc
    | some ip =>
      by_cases hA : Circle.isAhead ray ip.point
      · have hA2 := hA
        unfold Circle.isAhead at hA2
        rw [Circle.getIntersectionsLoop, if_pos hA2, Circle.keptPoints_some_ahead ray ip rest hA]
        by_cases hm : Vector2.magnitude sqrt (ip.point.minus self.center) = 0
        · simp only [Vector2.normalize, hm, if_true]
          constructor
          · intro h; cases h
          · intro h; exact absurd hm (h.1 _ (List.mem_cons_self _ _))
        · simp only [Vector2.normalize, hm, if_false]
          rw [ih]
          simp only [List.mem_cons, forall_eq_or_imp, List.map_cons, List.append_assoc,
            List.singleton_append, Circle.intersectionAt]
          constructor
          · rintro ⟨h1, h2⟩
            exact ⟨⟨hm, h1⟩, h2⟩
          · rintro ⟨⟨_, h1⟩, h2⟩
            exact ⟨h1, h2⟩
      · have hA2 := hA
        unfold Circle.isAhead at hA2
        rw [Circle.getIntersectionsLoop, if_neg hA2, Circle.keptPoints_some_behind ray ip rest hA]
        exact ih acc

theorem Circle.getIntersectionsFrom_ok_iff (arr : List (Option (RayIntersection K)))
    (l : List (Intersection K)) :
    Circle.getIntersectionsFrom sqrt self ray arr = .ok l ↔
      (∀ p ∈ Circle.keptPoints ray arr, Vector2.magnitude sqrt (p.minus self.center) ≠ 0) ∧
        l = (Circle.keptPoints ray arr).map (Circle.intersectionAt sqrt self ray) := by
  unfold Circle.getIntersectionsFrom
  rw [Circle.getIntersectionsLoop_ok_iff]
  simp

theorem Circle.mem_keptPoints {arr : List (Option (RayIntersection K))} {p : Vector2 K} :
    p ∈ Circle.keptPoints ray arr ↔
      (∃ ip, some ip ∈ arr ∧ ip.point = p) ∧ Circle.isAhead ray p := by
  simp [Circle.keptPoints, List.mem_filter, List.mem_map, List.mem_filterMap]

end Loop

/-! ## The modelled shape intersection -/

theorem Vector2.ext_iff {K : Type} {a b : Vector2 K} : a = b ↔ a.x = b.x ∧ a.y = b.y := by
  cases a; cases b; simp

section Shape

variable {K : Type} [LinearOrderedField K] (sqrt : K → K) (self : Circle K) (ray : Ray K)


theorem Circle.shapeIntersection_eq :
    Circle.shapeIntersection sqrt self (Ray2.mk ray.tail ray.directionUnitVector) =
      if Circle.discriminant self ray < 0 then []
      else if Circle.discriminant self ray = 0 then
        [some ⟨Circle.pointAt ray (-Circle.quadB self ray / (2 * Circle.quadA ray))⟩]
      else
        [some ⟨Circle.pointAt ray
            ((-Circle.quadB self ray - sqrt (Circle.discriminant self ray)) /
              (2 * Circle.quadA ray))⟩,
         some ⟨Circle.pointAt ray
            ((-Circle.quadB self ray + sqrt (Circle.discriminant self ray)) /
              (2 * Circle.quadA ray))⟩] :=
  rfl

theorem Circle.quadA_nonneg : 0 ≤ Circle.quadA ray := by
  unfold Circle.quadA Vector2.dot
  nlinarith [mul_self_nonneg ray.directionUnitVector.x, mul_self_nonneg ray.directionUnitVector.y]

theorem Circle.quadA_eq : Circle.quadA ray = ray.directionUnitVector.magnitudeSquared := rfl

/-- Lagrange's identity: the discriminant measures the radius against the distance
from the center to the line of the ray. -/
theorem Circle.discriminant_eq :
    Circle.discriminant self ray =
      4 * (ray.directionUnitVector.magnitudeSquared * (self.radius * self.radius) -
        (ray.directionUnitVector.x * (ray.tail.y - self.center.y) -
          ray.directionUnitVector.y * (ray.tail.x - self.center.x)) ^ 2) := by
  simp only [Circle.discriminant, Circle.quadA, Circle.quadB, Circle.quadC, Vector2.dot,
    Vector2.minus, Vector2.magnitudeSquared]
  ring

theorem Circle.isTangentRay_iff : Circle.isTangentRay self ray ↔ Circle.discriminant self ray = 0 := by
  rw [Circle.discriminant_eq, Circle.isTangentRay]
  constructor
  · intro h; rw [h]; ring
  · intro h; linarith

/-- Substituting the parametric equation of the ray into the equation of the circle. -/
theorem Circle.pointAt_on_circle (t : K) :
    ((Circle.pointAt ray t).minus self.center).magnitudeSquared - self.radius * self.radius =
      Circle.quadA ray * t * t + Circle.quadB self ray * t + Circle.quadC self ray := by
  simp only [Circle.pointAt, Ray2.pointAtDistance, Circle.quadA, Circle.quadB, Circle.quadC,
    Vector2.dot, Vector2.minus, Vector2.magnitudeSquared, Vector2.plus, Vector2.timesScalar]
  ring

theorem Circle.isAhead_pointAt (t : K) :
    Circle.isAhead ray (Circle.pointAt ray t) ↔ 0 < t * Circle.quadA ray := by
  have e : ((Circle.pointAt ray t).x - ray.tail.x) * ray.directionUnitVector.x +
      ((Circle.pointAt ray t).y - ray.tail.y) * ray.directionUnitVector.y =
        t * Circle.quadA ray := by
    simp only [Circle.pointAt, Ray2.pointAtDistance, Circle.quadA, Vector2.dot, Vector2.plus,
      Vector2.timesScalar]
    ring
  unfold Circle.isAhead
  rw [e]

theorem Circle.magnitudeSquared_pointAt_minus_tail (t : K) :
    ((Circle.pointAt ray t).minus ray.tail).magnitudeSquared = Circle.quadA ray * (t * t) := by
  simp only [Circle.pointAt, Ray2.pointAtDistance, Circle.quadA, Vector2.dot, Vector2.minus,
    Vector2.magnitudeSquared, Vector2.plus, Vector2.timesScalar]
  ring

/-- The value of the quadratic at a root given by the quadratic formula. -/
theorem Circle.quad_root {a b c s t : K} (ha : a ≠ 0) (hs : s * s = b * b - 4 * a * c)
    (ht : t = (-b - s) / (2 * a) ∨ t = (-b + s) / (2 * a)) :
    a * t * t + b * t + c = 0 := by
  have h2a : 2 * a ≠ 0 := mul_ne_zero (by norm_num) ha
  have h4 : 4 * a * (a * t * t + b * t + c) = 0 := by
    rcases ht with h | h
    · have e : 2 * a * t + b = -s := by
        rw [eq_div_iff h2a] at h
        linear_combination h
      linear_combination (2 * a * t + b - s) * e + hs
    · have e : 2 * a * t + b = s := by
        rw [eq_div_iff h2a] at h
        linear_combination h
      linear_combination (2 * a * t + b + s) * e + hs
  have h4a : 4 * a ≠ 0 := mul_ne_zero (by norm_num) ha
  exact (mul_eq_zero.1 h4).resolve_left h4a

/-- Every root of the quadratic is given by the quadratic formula. -/
theorem Circle.root_quad {a b c s t : K} (ha : a ≠ 0) (hs : s * s = b * b - 4 * a * c)
    (h : a * t * t + b * t + c = 0) :
    t = (-b - s) / (2 * a) ∨ t = (-b + s) / (2 * a) := by
  have h2a : 2 * a ≠ 0 := mul_ne_zero (by norm_num) ha
  have hprod : (2 * a * t + b + s) * (2 * a * t + b - s) = 0 := by
    linear_combination (4 * a) * h - hs
  rcases mul_eq_zero.1 hprod with h1 | h1
  · left
    rw [eq_div_iff h2a]
    linear_combination h1
  · right
    rw [eq_div_iff h2a]
    linear_combination h1

end Shape

/-! ## Worked inputs over the real numbers -/

section Examples

theorem real_sqrt_four : Real.sqrt 4 = 2 := by
  rw [show (4 : ℝ) = 2 * 2 by norm_num]
  exact Real.sqrt_mul_self (by norm_num)

/-- The unit circle about the origin and the ray from `(-2, 0)` along `+x`, with the
two crossings `(-1, 0)` and `(1, 0)` delivered in that order. -/
theorem example_from_two_crossings :
    Circle.getIntersectionsFrom Real.sqrt (⟨⟨0, 0⟩, 1⟩ : Circle ℝ) ⟨⟨-2, 0⟩, ⟨1, 0⟩⟩
        [some ⟨⟨-1, 0⟩⟩, some ⟨⟨1, 0⟩⟩] =
      .ok [⟨⟨-1, 0⟩, ⟨-1, 0⟩⟩, ⟨⟨-1, 0⟩, ⟨1, 0⟩⟩] := by
  norm_num [Circle.getIntersectionsFrom, Circle.getIntersectionsLoop, Vector2.dot, Vector2.minus,
    Vector2.magnitudeSquared, Vector2.magnitude, Vector2.normalize, Vector2.divideScalar,
    Vector2.negate]

/-- The same circle and ray through `getIntersections` itself. -/
theorem example_two_crossings :
    Circle.getIntersections Real.sqrt (⟨⟨0, 0⟩, 1⟩ : Circle ℝ) ⟨⟨-2, 0⟩, ⟨1, 0⟩⟩ =
      .ok [⟨⟨-1, 0⟩, ⟨-1, 0⟩⟩, ⟨⟨-1, 0⟩, ⟨1, 0⟩⟩] := by
  have h4 : Real.sqrt 4 = 2 := real_sqrt_four
  norm_num [Circle.getIntersections, Circle.getIntersectionsFrom, Circle.shapeIntersection,
    Circle.getIntersectionsLoop, Vector2.dot, Vector2.minus, Vector2.magnitudeSquared,
    Vector2.magnitude, Vector2.normalize, Vector2.divideScalar, Vector2.negate,
    Ray2.pointAtDistance, Vector2.plus, Vector2.timesScalar, h4]

/-- The unit circle about `(1, 0)` and the ray from `(0, 1)` along `+x`, which touches
it at `(1, 1)`. -/
theorem example_tangent :
    Circle.getIntersections Real.sqrt (⟨⟨1, 0⟩, 1⟩ : Circle ℝ) ⟨⟨0, 1⟩, ⟨1, 0⟩⟩ =
      .ok [⟨⟨0, 1⟩, ⟨1, 1⟩⟩] := by
  norm_num [Circle.getIntersections, Circle.getIntersectionsFrom, Circle.shapeIntersection,
    Circle.getIntersectionsLoop, Vector2.dot, Vector2.minus, Vector2.magnitudeSquared,
    Vector2.magnitude, Vector2.normalize, Vector2.divideScalar, Vector2.negate,
    Ray2.pointAtDistance, Vector2.plus, Vector2.timesScalar]

/-- The unit circle about the origin and the ray from its center along `+x`: the one
crossing `(1, 0)` gets the normal `(-1, 0)`. -/
theorem example_from_inside :
    Circle.getIntersections Real.sqrt (⟨⟨0, 0⟩, 1⟩ : Circle ℝ) ⟨⟨0, 0⟩, ⟨1, 0⟩⟩ =
      .ok [⟨⟨-1, 0⟩, ⟨1, 0⟩⟩] := by
  have h4 : Real.sqrt 4 = 2 := real_sqrt_four
  norm_num [Circle.getIntersections, Circle.getIntersectionsFrom, Circle.shapeIntersection,
    Circle.getIntersectionsLoop, Vector2.dot, Vector2.minus, Vector2.magnitudeSquared,
    Vector2.magnitude, Vector2.normalize, Vector2.divideScalar, Vector2.negate,
    Ray2.pointAtDistance, Vector2.plus, Vector2.timesScalar, h4]

end Examples

/-! ## Claims on `Circle.getIntersections` -/

section CircleClaims

variable {K : Type} [LinearOrderedField K]

/-- C1: every intersection that `Circle.getIntersections` returns lies strictly ahead
of the ray's tail, `(point − tail) · directionUnitVector > 0`, whatever array the
shape intersection delivered. -/
theorem Circle.getIntersections_ahead_of_tail (sqrt : K → K) (self : Circle K) (ray : Ray K)
    (intersectionArray : List (Option (RayIntersection K))) (l : List (Intersection K))
    (h : Circle.getIntersectionsFrom sqrt self ray intersectionArray = .ok l) :
    ∀ i ∈ l, (i.point.minus ray.tail).dot ray.directionUnitVector > 0 := by
  intro i hi
  obtain ⟨-, hl⟩ := (Circle.getIntersectionsFrom_ok_iff sqrt self ray intersectionArray l).1 h
  subst hl
  obtain ⟨p, hp, rfl⟩ := List.mem_map.1 hi
  have hA := ((Circle.mem_keptPoints ray).1 hp).2
  simpa [Circle.isAhead, Circle.intersectionAt, Vector2.minus, Vector2.dot] using hA

theorem Circle.getIntersections_ahead_of_tail_witness :
    Circle.getIntersectionsFrom Real.sqrt (⟨⟨0, 0⟩, 1⟩ : Circle ℝ) ⟨⟨-2, 0⟩, ⟨1, 0⟩⟩
        [some ⟨⟨-1, 0⟩⟩, some ⟨⟨1, 0⟩⟩] =
      .ok [⟨⟨-1, 0⟩, ⟨-1, 0⟩⟩, ⟨⟨-1, 0⟩, ⟨1, 0⟩⟩] ∧
    ∀ i ∈ ([⟨⟨-1, 0⟩, ⟨-1, 0⟩⟩, ⟨⟨-1, 0⟩, ⟨1, 0⟩⟩] : List (Intersection ℝ)),
      (i.point.minus (⟨-2, 0⟩ : Vector2 ℝ)).dot ⟨1, 0⟩ > 0 :=
  ⟨example_from_two_crossings,
    Circle.getIntersections_ahead_of_tail Real.sqrt ⟨⟨0, 0⟩, 1⟩ ⟨⟨-2, 0⟩, ⟨1, 0⟩⟩ _ _
      example_from_two_crossings⟩

theorem Circle.map_point_intersectionAt (sqrt : K → K) (self : Circle K) (ray : Ray K)
    (ps : List (Vector2 K)) :
    (ps.map (Circle.intersectionAt sqrt self ray)).map Intersection.point = ps := by
  induction ps with
  | nil => rfl
  | cons p ps ih =>
    simp only [List.map_cons, ih]
    rfl

theorem Circle.keptPoints_sublist (ray : Ray K) (arr : List (Option (RayIntersection K))) :
    (Circle.keptPoints ray arr).Sublist ((arr.filterMap id).map RayIntersection.point) :=
  List.filter_sublist _

/-- What the modelled shape delivers and the loop keeps is in strictly increasing
distance from the tail. -/
theorem Circle.keptPoints_shape_pairwise (sqrt : K → K) (hs : IsSqrt sqrt) (self : Circle K)
    (ray : Ray K) :
    (Circle.keptPoints ray
        (Circle.shapeIntersection sqrt self (Ray2.mk ray.tail ray.directionUnitVector))).Pairwise
      (fun p q => Vector2.distance sqrt p ray.tail < Vector2.distance sqrt q ray.tail) := by
  rw [Circle.shapeIntersection_eq]
  by_cases h1 : Circle.discriminant self ray < 0
  · rw [if_pos h1]; simp [Circle.keptPoints]
  rw [if_neg h1]
  by_cases h2 : Circle.discriminant self ray = 0
  · rw [if_pos h2]
    have hsub := Circle.keptPoints_sublist ray
      [some ⟨Circle.pointAt ray (-Circle.quadB self ray / (2 * Circle.quadA ray))⟩]
    exact List.Pairwise.sublist hsub (by simp)
  rw [if_neg h2]
  have hpos : 0 < Circle.discriminant self ray :=
    lt_of_le_of_ne (not_lt.1 h1) (Ne.symm h2)
  have hspos : 0 < sqrt (Circle.discriminant self ray) := hs.pos hpos
  generalize ht1 : (-Circle.quadB self ray - sqrt (Circle.discriminant self ray)) /
    (2 * Circle.quadA ray) = t1
  generalize ht2 : (-Circle.quadB self ray + sqrt (Circle.discriminant self ray)) /
    (2 * Circle.quadA ray) = t2
  by_cases hA1 : Circle.isAhead ray (Circle.pointAt ray t1)
  · by_cases hA2 : Circle.isAhead ray (Circle.pointAt ray t2)
    · rw [Circle.keptPoints_some_ahead ray ⟨Circle.pointAt ray t1⟩ _ hA1,
        Circle.keptPoints_some_ahead ray ⟨Circle.pointAt ray t2⟩ _ hA2]
      have ha0 := Circle.quadA_nonneg ray
      rw [Circle.isAhead_pointAt] at hA1 hA2
      have ha : 0 < Circle.quadA ray := by
        rcases ha0.lt_or_eq with h | h
        · exact h
        · rw [← h] at hA1; simp at hA1
      have hp1 : 0 < t1 := pos_of_mul_pos_left hA1 ha0
      have hlt : t1 < t2 := by
        rw [← ht1, ← ht2]
        apply div_lt_div_of_pos_right _ (by linarith)
        linarith
      simp only [Circle.keptPoints_nil, List.pairwise_cons, List.mem_singleton, forall_eq,
        List.not_mem_nil, false_imp_iff, implies_true, List.Pairwise.nil, and_true,
        Vector2.distance, Vector2.magnitude, Circle.magnitudeSquared_pointAt_minus_tail]
      apply hs.lt (mul_nonneg ha0 (mul_self_nonneg _))
      apply mul_lt_mul_of_pos_left _ ha
      exact mul_self_lt_mul_self hp1.le hlt
    · rw [Circle.keptPoints_some_ahead ray ⟨Circle.pointAt ray t1⟩ _ hA1,
        Circle.keptPoints_some_behind ray ⟨Circle.pointAt ray t2⟩ _ hA2]
      simp [Circle.keptPoints]
  · rw [Circle.keptPoints_some_behind ray ⟨Circle.pointAt ray t1⟩ _ hA1]
    have hsub := Circle.keptPoints_sublist ray [some ⟨Circle.pointAt ray t2⟩]
    exact List.Pairwise.sublist hsub (by simp)

/-- C2: `Circle.getIntersections` does no sorting: for every delivered array the
returned points are a sublist of the delivered non-null points, in the order of
delivery, so an array ordered by distance from the ray's tail gives a list ordered by
distance from the tail; and with the shape intersection of the spec the returned list
is in strictly increasing distance from the tail. -/
theorem Circle.getIntersections_ordered (sqrt : K → K) (hs : IsSqrt sqrt) (self : Circle K)
    (ray : Ray K) :
    (∀ (intersectionArray : List (Option (RayIntersection K))) (l : List (Intersection K)),
      Circle.getIntersectionsFrom sqrt self ray intersectionArray = .ok l →
        (l.map Intersection.point).Sublist
            ((intersectionArray.filterMap id).map RayIntersection.point) ∧
          ((intersectionArray.filterMap id).Pairwise
              (fun p q => Vector2.distance sqrt p.point ray.tail ≤
                Vector2.distance sqrt q.point ray.tail) →
            l.Pairwise (fun i j => Vector2.distance sqrt i.point ray.tail ≤
              Vector2.distance sqrt j.point ray.tail))) ∧
      ∀ l : List (Intersection K), Circle.getIntersections sqrt self ray = .ok l →
        l.Pairwise (fun i j => Vector2.distance sqrt i.point ray.tail <
          Vector2.distance sqrt j.point ray.tail) := by
  refine ⟨?_, ?_⟩
  · intro arr l h
    obtain ⟨-, hl⟩ := (Circle.getIntersectionsFrom_ok_iff sqrt self ray arr l).1 h
    subst hl
    refine ⟨?_, ?_⟩
    · rw [Circle.map_point_intersectionAt]
      exact Circle.keptPoints_sublist ray arr
    · intro hp
      rw [List.pairwise_map]
      have hp2 : ((arr.filterMap id).map RayIntersection.point).Pairwise
          (fun p q => Vector2.distance sqrt p ray.tail ≤ Vector2.distance sqrt q ray.tail) := by
        rw [List.pairwise_map]; exact hp
      exact List.Pairwise.sublist (Circle.keptPoints_sublist ray arr) hp2
  · intro l h
    obtain ⟨-, hl⟩ := (Circle.getIntersectionsFrom_ok_iff sqrt self ray _ l).1 h
    subst hl
    rw [List.pairwise_map]
    exact Circle.keptPoints_shape_pairwise sqrt hs self ray

theorem Circle.getIntersections_ordered_witness :
    Circle.getIntersections Real.sqrt (⟨⟨0, 0⟩, 1⟩ : Circle ℝ) ⟨⟨-2, 0⟩, ⟨1, 0⟩⟩ =
      .ok [⟨⟨-1, 0⟩, ⟨-1, 0⟩⟩, ⟨⟨-1, 0⟩, ⟨1, 0⟩⟩] ∧
    ([⟨⟨-1, 0⟩, ⟨-1, 0⟩⟩, ⟨⟨-1, 0⟩, ⟨1, 0⟩⟩] : List (Intersection ℝ)).Pairwise
      (fun i j => Vector2.distance Real.sqrt i.point ⟨-2, 0⟩ <
        Vector2.distance Real.sqrt j.point ⟨-2, 0⟩) :=
  ⟨example_two_crossings,
    (Circle.getIntersections_ordered Real.sqrt isSqrt_real ⟨⟨0, 0⟩, 1⟩ ⟨⟨-2, 0⟩, ⟨1, 0⟩⟩).2 _
      example_two_crossings⟩

theorem Vector2.dot_divideScalar (v d : Vector2 K) (m : K) :
    (v.divideScalar m).dot d = v.dot d / m := by
  simp only [Vector2.dot, Vector2.divideScalar]
  ring

theorem Vector2.dot_negate (v d : Vector2 K) : v.negate.dot d = -(v.dot d) := by
  simp only [Vector2.dot, Vector2.negate]
  ring

theorem Vector2.magnitudeSquared_nonneg (v : Vector2 K) : 0 ≤ v.magnitudeSquared := by
  unfold Vector2.magnitudeSquared
  nlinarith [mul_self_nonneg v.x, mul_self_nonneg v.y]

theorem Vector2.magnitudeSquared_negate (v : Vector2 K) :
    v.negate.magnitudeSquared = v.magnitudeSquared := by
  simp only [Vector2.magnitudeSquared, Vector2.negate]
  ring

/-- A vector divided by its non-zero magnitude has magnitude one. -/
theorem Vector2.magnitude_divideScalar_magnitude (sqrt : K → K) (hs : IsSqrt sqrt)
    (v : Vector2 K) (hm : Vector2.magnitude sqrt v ≠ 0) :
    Vector2.magnitude sqrt (v.divideScalar (Vector2.magnitude sqrt v)) = 1 := by
  have hsq : Vector2.magnitude sqrt v * Vector2.magnitude sqrt v = v.magnitudeSquared :=
    hs.mul_self (Vector2.magnitudeSquared_nonneg v)
  have e : (v.divideScalar (Vector2.magnitude sqrt v)).magnitudeSquared = 1 * 1 := by
    simp only [Vector2.magnitudeSquared, Vector2.divideScalar] at hsq ⊢
    field_simp
    linear_combination -hsq
  show sqrt (v.divideScalar (Vector2.magnitude sqrt v)).magnitudeSquared = 1
  rw [e]
  exact hs.sqrt_mul_self zero_le_one

/-- C3 (amended): every intersection that `Circle.getIntersections` returns has a
normal that is not along the ray, `normal · directionUnitVector ≤ 0`, and
`normal · directionUnitVector < 0` whenever `point − center` is not perpendicular to
the direction, whatever array the shape intersection delivered. -/
theorem Circle.getIntersections_normal_against_ray (sqrt : K → K) (self : Circle K)
    (ray : Ray K) (intersectionArray : List (Option (RayIntersection K)))
    (l : List (Intersection K))
    (h : Circle.getIntersectionsFrom sqrt self ray intersectionArray = .ok l) :
    ∀ i ∈ l, i.unitNormal.dot ray.directionUnitVector ≤ 0 ∧
      ((i.point.minus self.center).dot ray.directionUnitVector ≠ 0 →
        i.unitNormal.dot ray.directionUnitVector < 0) := by
  intro i hi
  obtain ⟨hm, hl⟩ := (Circle.getIntersectionsFrom_ok_iff sqrt self ray intersectionArray l).1 h
  subst hl
  obtain ⟨p, hp, rfl⟩ := List.mem_map.1 hi
  have hmp := hm p hp
  simp only [Circle.intersectionAt]
  by_cases hpos : ((p.minus self.center).divideScalar
      (Vector2.magnitude sqrt (p.minus self.center))).dot ray.directionUnitVector > 0
  · rw [if_pos hpos, Vector2.dot_negate]
    exact ⟨by linarith, fun _ => by linarith⟩
  · rw [if_neg hpos]
    refine ⟨not_lt.1 hpos, fun hne => lt_of_le_of_ne (not_lt.1 hpos) ?_⟩
    rw [Vector2.dot_divideScalar]
    exact div_ne_zero hne hmp

theorem Circle.getIntersections_normal_against_ray_witness :
    Circle.getIntersectionsFrom Real.sqrt (⟨⟨0, 0⟩, 1⟩ : Circle ℝ) ⟨⟨-2, 0⟩, ⟨1, 0⟩⟩
        [some ⟨⟨-1, 0⟩⟩, some ⟨⟨1, 0⟩⟩] =
      .ok [⟨⟨-1, 0⟩, ⟨-1, 0⟩⟩, ⟨⟨-1, 0⟩, ⟨1, 0⟩⟩] ∧
    ∀ i ∈ ([⟨⟨-1, 0⟩, ⟨-1, 0⟩⟩, ⟨⟨-1, 0⟩, ⟨1, 0⟩⟩] : List (Intersection ℝ)),
      i.unitNormal.dot (⟨1, 0⟩ : Vector2 ℝ) ≤ 0 ∧
        ((i.point.minus (⟨0, 0⟩ : Vector2 ℝ)).dot (⟨1, 0⟩ : Vector2 ℝ) ≠ 0 →
          i.unitNormal.dot (⟨1, 0⟩ : Vector2 ℝ) < 0) :=
  ⟨example_from_two_crossings,
    Circle.getIntersections_normal_against_ray Real.sqrt ⟨⟨0, 0⟩, 1⟩ ⟨⟨-2, 0⟩, ⟨1, 0⟩⟩ _ _
      example_from_two_crossings⟩

/-- C3 as stated fails on a tangent ray: for the unit circle about `(1, 0)` and the
ray from `(0, 1)` along `+x`, the returned intersection at `(1, 1)` has the normal
`(0, 1)`, whose dot product with the direction is `0`, not negative. -/
theorem Circle.getIntersections_normal_tangent_counterexample :
    ∃ l, Circle.getIntersections Real.sqrt (⟨⟨1, 0⟩, 1⟩ : Circle ℝ) ⟨⟨0, 1⟩, ⟨1, 0⟩⟩ = .ok l ∧
      ¬ ∀ i ∈ l, i.unitNormal.dot (⟨1, 0⟩ : Vector2 ℝ) < 0 := by
  refine ⟨_, example_tangent, ?_⟩
  intro hall
  have := hall ⟨⟨0, 1⟩, ⟨1, 1⟩⟩ (List.mem_singleton.2 rfl)
  norm_num [Vector2.dot] at this

/-- C4: the normal of every intersection that `Circle.getIntersections` returns is
the unit vector `(point − center) / |point − center|`, negated exactly when that
vector has a positive dot product with the ray direction, and has length 1, whatever
array the shape intersection delivered. -/
theorem Circle.getIntersections_unit_normal (sqrt : K → K) (hs : IsSqrt sqrt) (self : Circle K)
    (ray : Ray K) (intersectionArray : List (Option (RayIntersection K)))
    (l : List (Intersection K))
    (h : Circle.getIntersectionsFrom sqrt self ray intersectionArray = .ok l) :
    ∀ i ∈ l,
      Vector2.magnitude sqrt (i.point.minus self.center) ≠ 0 ∧
      Vector2.magnitude sqrt ((i.point.minus self.center).divideScalar
        (Vector2.magnitude sqrt (i.point.minus self.center))) = 1 ∧
      i.unitNormal =
        (if ((i.point.minus self.center).divideScalar
            (Vector2.magnitude sqrt (i.point.minus self.center))).dot
              ray.directionUnitVector > 0
          then ((i.point.minus self.center).divideScalar
            (Vector2.magnitude sqrt (i.point.minus self.center))).negate
          else (i.point.minus self.center).divideScalar
            (Vector2.magnitude sqrt (i.point.minus self.center))) ∧
      Vector2.magnitude sqrt i.unitNormal = 1 := by
  intro i hi
  obtain ⟨hm, hl⟩ := (Circle.getIntersectionsFrom_ok_iff sqrt self ray intersectionArray l).1 h
  subst hl
  obtain ⟨p, hp, rfl⟩ := List.mem_map.1 hi
  have hmp := hm p hp
  have hu := Vector2.magnitude_divideScalar_magnitude sqrt hs (p.minus self.center) hmp
  refine ⟨hmp, hu, rfl, ?_⟩
  simp only [Circle.intersectionAt]
  split_ifs
  · unfold Vector2.magnitude at hu ⊢
    rw [Vector2.magnitudeSquared_negate]
    exact hu
  · exact hu

theorem Circle.getIntersections_unit_normal_witness :
    Circle.getIntersectionsFrom Real.sqrt (⟨⟨0, 0⟩, 1⟩ : Circle ℝ) ⟨⟨-2, 0⟩, ⟨1, 0⟩⟩
        [some ⟨⟨-1, 0⟩⟩, some ⟨⟨1, 0⟩⟩] =
      .ok [⟨⟨-1, 0⟩, ⟨-1, 0⟩⟩, ⟨⟨-1, 0⟩, ⟨1, 0⟩⟩] ∧
    ∀ i ∈ ([⟨⟨-1, 0⟩, ⟨-1, 0⟩⟩, ⟨⟨-1, 0⟩, ⟨1, 0⟩⟩] : List (Intersection ℝ)),
      Vector2.magnitude Real.sqrt i.unitNormal = 1 :=
  ⟨example_from_two_crossings, fun i hi =>
    (Circle.getIntersections_unit_normal Real.sqrt isSqrt_real ⟨⟨0, 0⟩, 1⟩ ⟨⟨-2, 0⟩, ⟨1, 0⟩⟩ _ _
      example_from_two_crossings i hi).2.2.2⟩

/-- With a non-zero direction, every point the modelled shape delivers is on the circle. -/
theorem Circle.shapeIntersection_on_circle (sqrt : K → K) (hs : IsSqrt sqrt) (self : Circle K)
    (ray : Ray K) (ha : Circle.quadA ray ≠ 0) (ip : RayIntersection K)
    (hip : some ip ∈
      Circle.shapeIntersection sqrt self (Ray2.mk ray.tail ray.directionUnitVector)) :
    (ip.point.minus self.center).magnitudeSquared = self.radius * self.radius := by
  rw [Circle.shapeIntersection_eq] at hip
  have key : ∀ t s : K, s * s = Circle.discriminant self ray →
      (t = (-Circle.quadB self ray - s) / (2 * Circle.quadA ray) ∨
        t = (-Circle.quadB self ray + s) / (2 * Circle.quadA ray)) →
      ((Circle.pointAt ray t).minus self.center).magnitudeSquared =
        self.radius * self.radius := by
    intro t s hss ht
    have h0 := Circle.quad_root ha (c := Circle.quadC self ray) hss ht
    have h1 := Circle.pointAt_on_circle self ray t
    linarith
  by_cases h1 : Circle.discriminant self ray < 0
  · rw [if_pos h1] at hip; simp at hip
  rw [if_neg h1] at hip
  by_cases h2 : Circle.discriminant self ray = 0
  · rw [if_pos h2] at hip
    simp only [List.mem_singleton, Option.some.injEq] at hip
    subst hip
    exact key _ 0 (by rw [h2]; ring) (Or.inl (by ring))
  · rw [if_neg h2] at hip
    have hss := hs.mul_self (not_lt.1 h1)
    simp only [List.mem_cons, Option.some.injEq, List.mem_singleton, List.not_mem_nil,
      or_false] at hip
    rcases hip with hip | hip
    · subst hip
      exact key _ _ hss (Or.inl rfl)
    · subst hip
      exact key _ _ hss (Or.inr rfl)

/-- With a non-zero direction and a non-zero discriminant, the modelled shape delivers
exactly the points of the line of the ray that are on the circle. -/
theorem Circle.shapeIntersection_mem_iff (sqrt : K → K) (hs : IsSqrt sqrt) (self : Circle K)
    (ray : Ray K) (ha : Circle.quadA ray ≠ 0) (hd : Circle.discriminant self ray ≠ 0)
    (p : Vector2 K) :
    (∃ ip, some ip ∈
        Circle.shapeIntersection sqrt self (Ray2.mk ray.tail ray.directionUnitVector) ∧
          ip.point = p) ↔
      ∃ t, p = Circle.pointAt ray t ∧
        ((Circle.pointAt ray t).minus self.center).magnitudeSquared =
          self.radius * self.radius := by
  constructor
  · rintro ⟨ip, hip, rfl⟩
    have hon := Circle.shapeIntersection_on_circle sqrt hs self ray ha ip hip
    rw [Circle.shapeIntersection_eq] at hip
    by_cases h1 : Circle.discriminant self ray < 0
    · rw [if_pos h1] at hip; simp at hip
    rw [if_neg h1, if_neg hd] at hip
    simp only [List.mem_cons, Option.some.injEq, List.mem_singleton, List.not_mem_nil,
      or_false] at hip
    rcases hip with hip | hip
    · subst hip
      exact ⟨_, rfl, hon⟩
    · subst hip
      exact ⟨_, rfl, hon⟩
  · rintro ⟨t, rfl, hon⟩
    have hq : Circle.quadA ray * t * t + Circle.quadB self ray * t + Circle.quadC self ray = 0 := by
      have h1 := Circle.pointAt_on_circle self ray t
      linarith
    have hnn : 0 ≤ Circle.discriminant self ray := by
      have e : Circle.discriminant self ray =
          (2 * Circle.quadA ray * t + Circle.quadB self ray) ^ 2 := by
        unfold Circle.discriminant
        linear_combination (-4 * Circle.quadA ray) * hq
      rw [e]
      exact sq_nonneg _
    have hss := hs.mul_self hnn
    rw [Circle.shapeIntersection_eq, if_neg (not_lt.2 hnn), if_neg hd]
    rcases Circle.root_quad ha (c := Circle.quadC self ray) hss hq with ht | ht
    · exact ⟨⟨Circle.pointAt ray t⟩, by rw [ht]; simp, rfl⟩
    · exact ⟨⟨Circle.pointAt ray t⟩, by rw [ht]; simp, rfl⟩

theorem Circle.shapeIntersection_length_le (sqrt : K → K) (self : Circle K) (ray : Ray K) :
    (Circle.shapeIntersection sqrt self (Ray2.mk ray.tail ray.directionUnitVector)).length ≤ 2 ∧
      (Circle.discriminant self ray = 0 →
        (Circle.shapeIntersection sqrt self
          (Ray2.mk ray.tail ray.directionUnitVector)).length ≤ 1) := by
  rw [Circle.shapeIntersection_eq]
  by_cases h1 : Circle.discriminant self ray < 0
  · rw [if_pos h1]; simp
  · rw [if_neg h1]
    by_cases h2 : Circle.discriminant self ray = 0
    · rw [if_pos h2]; simp
    · rw [if_neg h2]; simp [h2]

theorem Circle.keptPoints_length_le (ray : Ray K) (arr : List (Option (RayIntersection K))) :
    (Circle.keptPoints ray arr).length ≤ arr.length := by
  have h1 := (Circle.keptPoints_sublist ray arr).length_le
  have h2 := List.length_filterMap_le id arr
  rw [List.length_map] at h1
  exact h1.trans h2

/-- C5: for a ray of non-zero direction that is not tangent to the circle,
`Circle.getIntersections` returns a list, and its points are exactly the points
`tail + t · direction` with `t > 0` on the circle `|P − center|² = radius²`. -/
theorem Circle.getIntersections_points_exact (sqrt : K → K) (hs : IsSqrt sqrt) (self : Circle K)
    (ray : Ray K) (hdir : ray.directionUnitVector.magnitudeSquared ≠ 0)
    (hnt : ¬ Circle.isTangentRay self ray) :
    ∃ l, Circle.getIntersections sqrt self ray = .ok l ∧
      ∀ p : Vector2 K, p ∈ l.map Intersection.point ↔
        ∃ t : K, 0 < t ∧ p = Circle.pointAt ray t ∧
          (p.minus self.center).magnitudeSquared = self.radius * self.radius := by
  have ha : Circle.quadA ray ≠ 0 := hdir
  have hapos : 0 < Circle.quadA ray := lt_of_le_of_ne (Circle.quadA_nonneg ray) (Ne.symm ha)
  have hd : Circle.discriminant self ray ≠ 0 := fun h =>
    hnt ((Circle.isTangentRay_iff self ray).2 h)
  have hmem := Circle.shapeIntersection_mem_iff sqrt hs self ray ha hd
  have hnz : ∀ p ∈ Circle.keptPoints ray
      (Circle.shapeIntersection sqrt self (Ray2.mk ray.tail ray.directionUnitVector)),
      Vector2.magnitude sqrt (p.minus self.center) ≠ 0 := by
    intro p hp
    obtain ⟨⟨ip, hip, rfl⟩, -⟩ := (Circle.mem_keptPoints ray).1 hp
    have hon := Circle.shapeIntersection_on_circle sqrt hs self ray ha ip hip
    have hdpos : 0 < Circle.discriminant self ray := by
      rcases lt_or_gt_of_ne hd with h | h
      · rw [Circle.shapeIntersection_eq, if_pos h] at hip
        simp at hip
      · exact h
    have hr : 0 < self.radius * self.radius := by
      rw [Circle.discriminant_eq, ← Circle.quadA_eq] at hdpos
      have h1 : 0 < Circle.quadA ray * (self.radius * self.radius) := by
        nlinarith [sq_nonneg (ray.directionUnitVector.x * (ray.tail.y - self.center.y) -
          ray.directionUnitVector.y * (ray.tail.x - self.center.x))]
      exact pos_of_mul_pos_right h1 hapos.le
    unfold Vector2.magnitude
    rw [hon]
    exact (hs.pos hr).ne'
  refine ⟨_, (Circle.getIntersectionsFrom_ok_iff sqrt self ray _ _).2 ⟨hnz, rfl⟩, ?_⟩
  intro p
  rw [Circle.map_point_intersectionAt, Circle.mem_keptPoints, hmem]
  constructor
  · rintro ⟨⟨t, rfl, hon⟩, hA⟩
    rw [Circle.isAhead_pointAt] at hA
    exact ⟨t, pos_of_mul_pos_left hA hapos.le, rfl, hon⟩
  · rintro ⟨t, ht, rfl, hon⟩
    exact ⟨⟨t, rfl, hon⟩, (Circle.isAhead_pointAt ray t).2 (mul_pos ht hapos)⟩

theorem Circle.getIntersections_points_exact_witness :
    ∃ l, Circle.getIntersections Real.sqrt (⟨⟨0, 0⟩, 1⟩ : Circle ℝ) ⟨⟨-2, 0⟩, ⟨1, 0⟩⟩ = .ok l ∧
      ∀ p : Vector2 ℝ, p ∈ l.map Intersection.point ↔
        ∃ t : ℝ, 0 < t ∧ p = Circle.pointAt (⟨⟨-2, 0⟩, ⟨1, 0⟩⟩ : Ray ℝ) t ∧
          (p.minus (⟨0, 0⟩ : Vector2 ℝ)).magnitudeSquared = 1 * 1 :=
  Circle.getIntersections_points_exact Real.sqrt isSqrt_real ⟨⟨0, 0⟩, 1⟩ ⟨⟨-2, 0⟩, ⟨1, 0⟩⟩
    (by norm_num [Vector2.magnitudeSquared])
    (by norm_num [Circle.isTangentRay, Vector2.magnitudeSquared])

/-- C7: when `Circle.getIntersections` returns a list it has at most two
intersections, and at most one for a ray tangent to the circle. -/
theorem Circle.getIntersections_length_le (sqrt : K → K) (self : Circle K) (ray : Ray K)
    (l : List (Intersection K)) (h : Circle.getIntersections sqrt self ray = .ok l) :
    l.length ≤ 2 ∧ (Circle.isTangentRay self ray → l.length ≤ 1) := by
  obtain ⟨-, hl⟩ := (Circle.getIntersectionsFrom_ok_iff sqrt self ray _ l).1 h
  subst hl
  rw [List.length_map]
  have hk := Circle.keptPoints_length_le ray
    (Circle.shapeIntersection sqrt self (Ray2.mk ray.tail ray.directionUnitVector))
  obtain ⟨h2, h1⟩ := Circle.shapeIntersection_length_le sqrt self ray
  exact ⟨hk.trans h2, fun ht => hk.trans (h1 ((Circle.isTangentRay_iff self ray).1 ht))⟩

theorem Circle.getIntersections_length_le_witness :
    Circle.isTangentRay (⟨⟨1, 0⟩, 1⟩ : Circle ℝ) ⟨⟨0, 1⟩, ⟨1, 0⟩⟩ ∧
    Circle.getIntersections Real.sqrt (⟨⟨1, 0⟩, 1⟩ : Circle ℝ) ⟨⟨0, 1⟩, ⟨1, 0⟩⟩ =
      .ok [⟨⟨0, 1⟩, ⟨1, 1⟩⟩] ∧
    ([⟨⟨0, 1⟩, ⟨1, 1⟩⟩] : List (Intersection ℝ)).length ≤ 2 ∧
    (Circle.isTangentRay (⟨⟨1, 0⟩, 1⟩ : Circle ℝ) ⟨⟨0, 1⟩, ⟨1, 0⟩⟩ →
      ([⟨⟨0, 1⟩, ⟨1, 1⟩⟩] : List (Intersection ℝ)).length ≤ 1) :=
  ⟨by norm_num [Circle.isTangentRay, Vector2.magnitudeSquared], example_tangent,
    Circle.getIntersections_length_le Real.sqrt ⟨⟨1, 0⟩, 1⟩ ⟨⟨0, 1⟩, ⟨1, 0⟩⟩ _ example_tangent⟩

/-- C8: on a circle of positive radius and a ray of unit direction,
`Circle.getIntersections` returns a list: every vector `point − center` it normalizes
has magnitude `radius`, which is not zero, so `normalize` does not throw. -/
theorem Circle.getIntersections_never_fails (sqrt : K → K) (hs : IsSqrt sqrt) (self : Circle K)
    (ray : Ray K) (hr : 0 < self.radius)
    (hunit : ray.directionUnitVector.magnitudeSquared = 1) :
    (∀ ip, some ip ∈
        Circle.shapeIntersection sqrt self (Ray2.mk ray.tail ray.directionUnitVector) →
      Vector2.magnitude sqrt (ip.point.minus self.center) = self.radius ∧
        (ip.point.minus self.center).normalize sqrt =
          .ok ((ip.point.minus self.center).divideScalar self.radius)) ∧
    ∃ l, Circle.getIntersections sqrt self ray = .ok l ∧
      ∀ i ∈ l, Vector2.magnitude sqrt (i.point.minus self.center) = self.radius := by
  have ha : Circle.quadA ray ≠ 0 := by
    rw [Circle.quadA_eq, hunit]; exact one_ne_zero
  have hmag : ∀ ip, some ip ∈
      Circle.shapeIntersection sqrt self (Ray2.mk ray.tail ray.directionUnitVector) →
      Vector2.magnitude sqrt (ip.point.minus self.center) = self.radius := by
    intro ip hip
    unfold Vector2.magnitude
    rw [Circle.shapeIntersection_on_circle sqrt hs self ray ha ip hip]
    exact hs.sqrt_mul_self hr.le
  refine ⟨fun ip hip => ⟨hmag ip hip, ?_⟩, _,
    (Circle.getIntersectionsFrom_ok_iff sqrt self ray _ _).2 ⟨?_, rfl⟩, ?_⟩
  · simp only [Vector2.normalize, hmag ip hip, if_neg hr.ne']
  · intro p hp
    obtain ⟨⟨ip, hip, rfl⟩, -⟩ := (Circle.mem_keptPoints ray).1 hp
    rw [hmag ip hip]
    exact hr.ne'
  · intro i hi
    obtain ⟨p, hp, rfl⟩ := List.mem_map.1 hi
    obtain ⟨⟨ip, hip, rfl⟩, -⟩ := (Circle.mem_keptPoints ray).1 hp
    exact hmag ip hip

theorem Circle.getIntersections_never_fails_witness :
    ∃ l, Circle.getIntersections Real.sqrt (⟨⟨0, 0⟩, 1⟩ : Circle ℝ) ⟨⟨-2, 0⟩, ⟨1, 0⟩⟩ = .ok l ∧
      ∀ i ∈ l, Vector2.magnitude Real.sqrt (i.point.minus (⟨0, 0⟩ : Vector2 ℝ)) = 1 :=
  (Circle.getIntersections_never_fails Real.sqrt isSqrt_real ⟨⟨0, 0⟩, 1⟩ ⟨⟨-2, 0⟩, ⟨1, 0⟩⟩
    (by norm_num) (by norm_num [Vector2.magnitudeSquared])).2

/-- Moving a point of the circle by `s` along its unit radial vector puts it at
distance `|radius + s|` from the center. -/
theorem Vector2.magnitudeSquared_radial_offset (p c : Vector2 K) (r s : K) (hr : r ≠ 0)
    (hon : (p.minus c).magnitudeSquared = r * r) :
    ((p.plus (((p.minus c).divideScalar r).timesScalar s)).minus c).magnitudeSquared =
      (r + s) * (r + s) := by
  have hq : (r + s) / r * r = r + s := div_mul_cancel₀ _ hr
  have hx : p.x + (p.x - c.x) / r * s - c.x = (p.x - c.x) * ((r + s) / r) := by
    field_simp; ring
  have hy : p.y + (p.y - c.y) / r * s - c.y = (p.y - c.y) * ((r + s) / r) := by
    field_simp; ring
  simp only [Vector2.magnitudeSquared, Vector2.minus, Vector2.plus, Vector2.timesScalar,
    Vector2.divideScalar] at hon ⊢
  rw [hx, hy]
  linear_combination ((r + s) / r) ^ 2 * hon + ((r + s) / r * r + (r + s)) * hq

theorem Vector2.negate_timesScalar (v : Vector2 K) (s : K) :
    v.negate.timesScalar s = v.timesScalar (-s) := by
  simp only [Vector2.negate, Vector2.timesScalar, Vector2.ext_iff]
  constructor <;> ring

/-- C6 (amended): on a circle of positive radius, for an array of delivered points on
the circle, a returned intersection at which the ray does not leave the circle,
`(point − center) · direction ≤ 0`, has an outward normal: `point + ε · normal` is not
contained in the circle for every `ε > 0`; one at which the ray leaves the circle,
`(point − center) · direction > 0`, has the flipped, inward normal:
`point + ε · normal` is contained in the circle for every `0 < ε ≤ 2 · radius`. -/
theorem Circle.getIntersections_normal_outward_on_entry (sqrt : K → K) (hs : IsSqrt sqrt)
    (self : Circle K) (ray : Ray K) (hr : 0 < self.radius)
    (intersectionArray : List (Option (RayIntersection K)))
    (hon : ∀ ip, some ip ∈ intersectionArray →
      (ip.point.minus self.center).magnitudeSquared = self.radius * self.radius)
    (l : List (Intersection K))
    (h : Circle.getIntersectionsFrom sqrt self ray intersectionArray = .ok l) :
    ∀ i ∈ l,
      ((i.point.minus self.center).dot ray.directionUnitVector ≤ 0 →
        ∀ ε : K, 0 < ε →
          Circle.containsPoint sqrt self (i.point.plus (i.unitNormal.timesScalar ε)) = false) ∧
      ((i.point.minus self.center).dot ray.directionUnitVector > 0 →
        ∀ ε : K, 0 < ε → ε ≤ 2 * self.radius →
          Circle.containsPoint sqrt self (i.point.plus (i.unitNormal.timesScalar ε)) = true) := by
  intro i hi
  obtain ⟨-, hl⟩ := (Circle.getIntersectionsFrom_ok_iff sqrt self ray intersectionArray l).1 h
  subst hl
  obtain ⟨p, hp, rfl⟩ := List.mem_map.1 hi
  obtain ⟨⟨ip, hip, rfl⟩, -⟩ := (Circle.mem_keptPoints ray).1 hp
  have honp := hon ip hip
  have hmag : sqrt (ip.point.minus self.center).magnitudeSquared = self.radius := by
    rw [honp]
    exact hs.sqrt_mul_self hr.le
  simp only [Circle.intersectionAt, hmag, Vector2.dot_divideScalar, Circle.containsPoint,
    Vector2.distance, Vector2.magnitude, decide_eq_false_iff_not, decide_eq_true_iff, not_le]
  constructor
  · intro hle ε hε
    have hnp : ¬ (ip.point.minus self.center).dot ray.directionUnitVector / self.radius > 0 :=
      not_lt.2 (div_nonpos_of_nonpos_of_nonneg hle hr.le)
    rw [if_neg hnp, Vector2.magnitudeSquared_radial_offset _ _ _ _ hr.ne' honp,
      hs.sqrt_mul_self (by linarith)]
    linarith
  · intro hgt ε hε hε2
    have hpp : (ip.point.minus self.center).dot ray.directionUnitVector / self.radius > 0 :=
      div_pos hgt hr
    rw [if_pos hpp, Vector2.negate_timesScalar,
      Vector2.magnitudeSquared_radial_offset _ _ _ _ hr.ne' honp]
    rcases le_total ε self.radius with hc | hc
    · rw [hs.sqrt_mul_self (by linarith)]
      linarith
    · rw [show (self.radius + -ε) * (self.radius + -ε) = (ε - self.radius) * (ε - self.radius)
        by ring, hs.sqrt_mul_self (by linarith)]
      linarith

theorem Circle.getIntersections_normal_outward_on_entry_witness :
    Circle.getIntersectionsFrom Real.sqrt (⟨⟨0, 0⟩, 1⟩ : Circle ℝ) ⟨⟨-2, 0⟩, ⟨1, 0⟩⟩
        [some ⟨⟨-1, 0⟩⟩, some ⟨⟨1, 0⟩⟩] =
      .ok [⟨⟨-1, 0⟩, ⟨-1, 0⟩⟩, ⟨⟨-1, 0⟩, ⟨1, 0⟩⟩] ∧
    ∀ i ∈ ([⟨⟨-1, 0⟩, ⟨-1, 0⟩⟩, ⟨⟨-1, 0⟩, ⟨1, 0⟩⟩] : List (Intersection ℝ)),
      ((i.point.minus (⟨0, 0⟩ : Vector2 ℝ)).dot (⟨1, 0⟩ : Vector2 ℝ) ≤ 0 →
        ∀ ε : ℝ, 0 < ε →
          Circle.containsPoint Real.sqrt (⟨⟨0, 0⟩, 1⟩ : Circle ℝ)
            (i.point.plus (i.unitNormal.timesScalar ε)) = false) ∧
      ((i.point.minus (⟨0, 0⟩ : Vector2 ℝ)).dot (⟨1, 0⟩ : Vector2 ℝ) > 0 →
        ∀ ε : ℝ, 0 < ε → ε ≤ 2 * 1 →
          Circle.containsPoint Real.sqrt (⟨⟨0, 0⟩, 1⟩ : Circle ℝ)
            (i.point.plus (i.unitNormal.timesScalar ε)) = true) :=
  ⟨example_from_two_crossings,
    Circle.getIntersections_normal_outward_on_entry Real.sqrt isSqrt_real ⟨⟨0, 0⟩, 1⟩
      ⟨⟨-2, 0⟩, ⟨1, 0⟩⟩ (by norm_num) [some ⟨⟨-1, 0⟩⟩, some ⟨⟨1, 0⟩⟩]
      (by
        intro ip hip
        simp only [List.mem_cons, Option.some.injEq, List.mem_singleton, List.not_mem_nil,
          or_false] at hip
        rcases hip with rfl | rfl <;> norm_num [Vector2.magnitudeSquared, Vector2.minus])
      _ example_from_two_crossings⟩

/-- C6 as stated fails where the ray leaves the circle: for the unit circle about the
origin and the ray from its center along `+x`, the returned intersection at `(1, 0)`
has the normal `(-1, 0)`, and `(1, 0) + (1/2) · (-1, 0) = (1/2, 0)` is contained in
the circle. -/
theorem Circle.getIntersections_normal_outward_counterexample :
    ∃ l, Circle.getIntersections Real.sqrt (⟨⟨0, 0⟩, 1⟩ : Circle ℝ) ⟨⟨0, 0⟩, ⟨1, 0⟩⟩ = .ok l ∧
      ¬ ∀ i ∈ l, ∀ ε : ℝ, 0 < ε →
        Circle.containsPoint Real.sqrt (⟨⟨0, 0⟩, 1⟩ : Circle ℝ)
          (i.point.plus (i.unitNormal.timesScalar ε)) = false := by
  refine ⟨_, example_from_inside, ?_⟩
  intro hall
  have h := hall ⟨⟨-1, 0⟩, ⟨1, 0⟩⟩ (List.mem_singleton.2 rfl) (1 / 2) (by norm_num)
  have hle : Real.sqrt ((1 + -1 * (1 / 2) - 0) * (1 + -1 * (1 / 2) - 0) +
      (0 + 0 * (1 / 2) - 0) * (0 + 0 * (1 / 2) - 0)) ≤ (1 : ℝ) :=
    Real.sqrt_le_one.2 (by norm_num)
  simp only [Circle.containsPoint, Vector2.distance, Vector2.magnitude,
    Vector2.magnitudeSquared, Vector2.minus, Vector2.plus, Vector2.timesScalar,
    decide_eq_false_iff_not] at h
  exact h hle

end CircleClaims

/-! ## Claims on `Reading` -/

section ReadingClaims

/-- C9: `isHit()` is `true` on every `Reading` built by the constructor, whatever its
value, and `false` on `Reading.MISS`. -/
theorem Reading.isHit_distinguishes (K : Type) :
    (∀ value : K, (Reading.mk value).isHit = true) ∧ (Reading.MISS : Reading K).isHit = false :=
  ⟨fun _ => rfl, rfl⟩

theorem StringUtils.formatChars_valuePercent (arg : List Char) :
    StringUtils.formatChars arg valuePercentChars = arg ++ ['%'] := by
  simp [StringUtils.formatChars, valuePercentChars]

theorem Util.toFixedChars_two (number : ℚ) :
    Util.toFixedChars number 2 =
      (if ⌊number * 100 + 1 / 2⌋ < 0 then ['-'] else []) ++
        Nat.toDigits 10 (⌊number * 100 + 1 / 2⌋.natAbs / 100) ++
          ['.', Nat.digitChar (⌊number * 100 + 1 / 2⌋.natAbs / 10 % 10),
            Nat.digitChar (⌊number * 100 + 1 / 2⌋.natAbs % 10)] := by
  have e : number * 10 ^ 2 + 1 / 2 = number * 100 + 1 / 2 := by norm_num
  simp only [Util.toFixedChars, e]
  simp [List.range_succ]

theorem example_percent (missString : String) :
    Reading.getString missString (Reading.mk (87 / 100)) = "87.00%" := by
  have hf : ⌊(87 / 100 : ℚ) * 100 * 100 + 1 / 2⌋ = 8700 := by
    rw [Int.floor_eq_iff]
    constructor <;> norm_num
  simp only [Reading.getString, Reading.format, VALUE_DECIMALS, Util.toFixedChars_two,
    StringUtils.formatChars_valuePercent, hf]
  decide

theorem Nat.digitChar_isDigit (m : ℕ) (hm : m < 10) :
    (Nat.digitChar m).isDigit = true ∧ (Nat.digitChar m).toNat - 48 = m := by
  interval_cases m <;> exact ⟨by decide, by decide⟩

/-- C10: `getString()` of a `Reading` with value `v` is `format( v × 100 )`, and that is
the percent pattern filled with `v × 100` rounded to the nearest hundredth and written
with exactly two digits after the point; a `Reading` with value `0.87` displays
`"87.00%"`. -/
theorem Reading.getString_percent (missString : String) (value : ℚ) :
    Reading.getString missString (Reading.mk value) = Reading.format (value * 100) ∧
    (∃ (scaled : ℤ) (d1 d2 : Char),
      ((scaled : ℚ) - 1 / 2 ≤ value * 100 * 100 ∧ value * 100 * 100 < scaled + 1 / 2) ∧
      d1.isDigit = true ∧ d2.isDigit = true ∧
      scaled.natAbs % 100 = 10 * (d1.toNat - 48) + (d2.toNat - 48) ∧
      Reading.format (value * 100) =
        String.mk ((if scaled < 0 then ['-'] else []) ++
          Nat.toDigits 10 (scaled.natAbs / 100) ++ ['.', d1, d2, '%'])) ∧
    Reading.getString missString (Reading.mk (87 / 100)) = "87.00%" := by
  refine ⟨rfl, ⟨⌊value * 100 * 100 + 1 / 2⌋,
    Nat.digitChar (⌊value * 100 * 100 + 1 / 2⌋.natAbs / 10 % 10),
    Nat.digitChar (⌊value * 100 * 100 + 1 / 2⌋.natAbs % 10), ⟨?_, ?_⟩, ?_, ?_, ?_, ?_⟩,
    example_percent missString⟩
  · have := Int.floor_le (value * 100 * 100 + 1 / 2)
    linarith
  · have := Int.lt_floor_add_one (value * 100 * 100 + 1 / 2)
    linarith
  · exact (Nat.digitChar_isDigit _ (Nat.mod_lt _ (by norm_num))).1
  · exact (Nat.digitChar_isDigit _ (Nat.mod_lt _ (by norm_num))).1
  · rw [(Nat.digitChar_isDigit _ (Nat.mod_lt _ (by norm_num))).2,
      (Nat.digitChar_isDigit _ (Nat.mod_lt _ (by norm_num))).2]
    omega
  · simp only [Reading.format, VALUE_DECIMALS, Util.toFixedChars_two,
      StringUtils.formatChars_valuePercent, List.append_assoc, List.cons_append,
      List.nil_append]

theorem Reading.format_getLast (number : ℚ) :
    (Reading.format number).data.getLast? = some '%' := by
  simp [Reading.format, StringUtils.formatChars_valuePercent]

/-- C11: `Reading.MISS` has no `value` field, and `Reading.MISS.getString()` is the
fixed miss string whatever the meter measured; as long as that string does not end in
the percent sign it is no formatted percentage. -/
theorem Reading.MISS_getString_fixed (missString : String) :
    (Reading.MISS : Reading ℚ).value? = none ∧
    Reading.getString missString Reading.MISS = missString ∧
    (missString.data.getLast? ≠ some '%' →
      ∀ number : ℚ, Reading.getString missString Reading.MISS ≠ Reading.format number) := by
  refine ⟨rfl, rfl, fun hlast number heq => hlast ?_⟩
  have h : missString = Reading.format number := heq
  rw [h]
  exact Reading.format_getLast number

theorem Reading.MISS_getString_fixed_witness :
    "-".data.getLast? ≠ some '%' ∧
      ∀ number : ℚ, Reading.getString "-" Reading.MISS ≠ Reading.format number :=
  ⟨by decide, (Reading.MISS_getString_fixed "-").2.2 (by decide)⟩

end ReadingClaims

/-! ## Claims on `Substance` -/

section SubstanceClaims

variable {K : Type} [LinearOrderedField K]

/-- C12: every `Substance` the constructor produces for the index `indexForRed` has a
dispersion function with that reference index and the reference wavelength
`WAVELENGTH_RED`, and `getIndexOfRefractionForRedLight()`, which evaluates it at
`WAVELENGTH_RED`, returns `indexForRed`; for every index that is at least 1 the
constructor produces one. -/
theorem Substance.getIndexOfRefractionForRedLight_eq (cauchyB : K) (name : String)
    (indexForRed : K) (mystery custom : Bool) :
    (∀ s : Substance K, Substance.new name indexForRed mystery custom = .ok s →
      s.dispersionFunction.referenceIndexOfRefraction = indexForRed ∧
      s.dispersionFunction.referenceWavelength = WAVELENGTH_RED ∧
      s.getIndexOfRefractionForRedLight cauchyB = indexForRed) ∧
    (1 ≤ indexForRed →
      ∃ s : Substance K, Substance.new name indexForRed mystery custom = .ok s ∧
        s.dispersionFunction.referenceIndexOfRefraction = indexForRed ∧
        s.dispersionFunction.referenceWavelength = WAVELENGTH_RED ∧
        s.getIndexOfRefractionForRedLight cauchyB = indexForRed) := by
  have hget : ∀ wavelength : K,
      DispersionFunction.getIndexOfRefraction cauchyB ⟨indexForRed, wavelength⟩ wavelength =
        indexForRed := by
    intro wavelength
    simp only [DispersionFunction.getIndexOfRefraction, sub_add_cancel]
  constructor
  · intro s hs
    by_cases hlt : indexForRed < 1
    · simp [Substance.new, Substance.newWith, DispersionFunction.new, hlt] at hs
    · simp only [Substance.new, Substance.newWith, DispersionFunction.new, if_neg hlt,
        Except.ok.injEq] at hs
      subst hs
      exact ⟨rfl, rfl, hget _⟩
  · intro hge
    refine ⟨⟨name, ⟨indexForRed, WAVELENGTH_RED⟩, mystery, custom⟩, ?_, rfl, rfl, hget _⟩
    simp only [Substance.new, Substance.newWith, DispersionFunction.new,
      if_neg (not_lt.2 hge)]

theorem Substance.getIndexOfRefractionForRedLight_eq_witness :
    ∃ s : Substance ℚ, Substance.new "glass" (3 / 2 : ℚ) false false = .ok s ∧
      s.dispersionFunction.referenceIndexOfRefraction = 3 / 2 ∧
      s.dispersionFunction.referenceWavelength = WAVELENGTH_RED ∧
      s.getIndexOfRefractionForRedLight 4000 = 3 / 2 :=
  (Substance.getIndexOfRefractionForRedLight_eq (4000 : ℚ) "glass" (3 / 2) false false).2
    (by norm_num)

/-- C18: constructing a `Substance` with `indexForRed < 1` fails with a configuration
error and produces no `Substance`. The constructor of `Substance` has no test of its
own: it fails exactly when `new DispersionFunction( indexForRed, WAVELENGTH_RED )`
fails, with the same error, and that constructor rejects an index below 1. -/
theorem Substance.new_rejects_index_below_one (name : String) (indexForRed : K)
    (mystery custom : Bool) (hlt : indexForRed < 1) :
    (∃ e, Substance.new name indexForRed mystery custom = .error e) ∧
    (¬ ∃ s, Substance.new name indexForRed mystery custom = .ok s) ∧
    (∀ (newDispersionFunction : K → K → Except String (DispersionFunction K)) (e : String),
      newDispersionFunction indexForRed WAVELENGTH_RED = .error e →
        Substance.newWith newDispersionFunction name indexForRed mystery custom = .error e) ∧
    (∀ (newDispersionFunction : K → K → Except String (DispersionFunction K))
        (d : DispersionFunction K),
      newDispersionFunction indexForRed WAVELENGTH_RED = .ok d →
        Substance.newWith newDispersionFunction name indexForRed mystery custom =
          .ok ⟨name, d, mystery, custom⟩) := by
  have herr : Substance.new name indexForRed mystery custom =
      .error "Configuration error: index of refraction below 1" := by
    simp only [Substance.new, Substance.newWith, DispersionFunction.new, if_pos hlt]
  refine ⟨⟨_, herr⟩, ?_, fun newDispersionFunction e he => ?_,
    fun newDispersionFunction d hd => ?_⟩
  · rintro ⟨s, hs⟩
    rw [herr] at hs
    cases hs
  · simp only [Substance.newWith, he]
  · simp only [Substance.newWith, hd]

theorem Substance.new_rejects_index_below_one_witness :
    (1 / 2 : ℚ) < 1 ∧
    (∃ e, Substance.new "glass" (1 / 2 : ℚ) false false = .error e) ∧
    ¬ ∃ s, Substance.new "glass" (1 / 2 : ℚ) false false = .ok s :=
  ⟨by norm_num,
    (Substance.new_rejects_index_below_one "glass" (1 / 2 : ℚ) false false (by norm_num)).1,
    (Substance.new_rejects_index_below_one "glass" (1 / 2 : ℚ) false false (by norm_num)).2.1⟩

end SubstanceClaims

/-! ## Claims on the other methods of `Circle` -/

section CircleMethodClaims

variable {K : Type} [LinearOrderedField K]

/-- C13: `containsPoint( point )` is true exactly when the distance from the point to
the center is at most the radius; for a non-negative radius that is the closed disc
`|point − center|² ≤ radius²`, and a point at distance exactly `radius` is contained. -/
theorem Circle.containsPoint_iff (sqrt : K → K) (hs : IsSqrt sqrt) (self : Circle K)
    (point : Vector2 K) :
    (Circle.containsPoint sqrt self point = true ↔
      Vector2.distance sqrt point self.center ≤ self.radius) ∧
    (0 ≤ self.radius →
      (Circle.containsPoint sqrt self point = true ↔
        (point.minus self.center).magnitudeSquared ≤ self.radius * self.radius)) ∧
    (Vector2.distance sqrt point self.center = self.radius →
      Circle.containsPoint sqrt self point = true) := by
  have hm := Vector2.magnitudeSquared_nonneg (point.minus self.center)
  have h0 := hs.nonneg hm
  have hsq := hs.mul_self hm
  simp only [Circle.containsPoint, decide_eq_true_iff, Vector2.distance, Vector2.magnitude]
  refine ⟨trivial, fun hr => ⟨fun h => ?_, fun h => ?_⟩, fun h => h.le⟩
  · rw [← hsq]
    exact mul_self_le_mul_self h0 h
  · by_contra hcon
    have hlt := mul_self_lt_mul_self hr (not_le.1 hcon)
    rw [hsq] at hlt
    exact absurd h (not_le.2 hlt)

theorem Circle.containsPoint_iff_witness :
    Circle.containsPoint Real.sqrt (⟨⟨0, 0⟩, 1⟩ : Circle ℝ) ⟨1, 0⟩ = true ∧
    Circle.containsPoint Real.sqrt (⟨⟨0, 0⟩, 1⟩ : Circle ℝ) ⟨2, 0⟩ = false := by
  have h1 := Circle.containsPoint_iff Real.sqrt isSqrt_real (⟨⟨0, 0⟩, 1⟩ : Circle ℝ) ⟨1, 0⟩
  have h2 := Circle.containsPoint_iff Real.sqrt isSqrt_real (⟨⟨0, 0⟩, 1⟩ : Circle ℝ) ⟨2, 0⟩
  refine ⟨(h1.2.1 (by norm_num)).2 (by norm_num [Vector2.magnitudeSquared, Vector2.minus]), ?_⟩
  rw [Bool.eq_false_iff]
  intro hc
  have := (h2.2.1 (by norm_num)).1 hc
  norm_num [Vector2.magnitudeSquared, Vector2.minus] at this

end CircleMethodClaims

/-- C17 (amended): the constructor of `Circle` does not test its arguments: for every
center and every radius, zero included, it produces a `Circle` with that center and
that radius. -/
theorem Circle.new_accepts_every_radius {K : Type} (center : Vector2 K) (radius : K) :
    Circle.new center radius = .ok ⟨center, radius⟩ :=
  rfl

/-- C17 as stated fails: constructing a `Circle` about `(1, 0)` with radius zero
produces a `Circle` and no error. -/
theorem Circle.new_zero_radius_counterexample :
    Circle.new (⟨1, 0⟩ : Vector2 ℚ) 0 = .ok ⟨⟨1, 0⟩, 0⟩ ∧
    ¬ ∃ e, Circle.new (⟨1, 0⟩ : Vector2 ℚ) 0 = .error e := by
  refine ⟨rfl, ?_⟩
  rintro ⟨e, he⟩
  cases he

/-- A circle of radius zero is first noticed during tracing: for the circle about
`(1, 0)` with radius zero and the ray from the origin along `+x`, `getIntersections`
throws. -/
theorem example_zero_radius_throws :
    Circle.getIntersections Real.sqrt (⟨⟨1, 0⟩, 0⟩ : Circle ℝ) ⟨⟨0, 0⟩, ⟨1, 0⟩⟩ =
      .error "Cannot normalize a zero-magnitude vector" := by
  norm_num [Circle.getIntersections, Circle.getIntersectionsFrom, Circle.shapeIntersection,
    Circle.getIntersectionsLoop, Vector2.dot, Vector2.minus, Vector2.magnitudeSquared,
    Vector2.magnitude, Vector2.normalize, Vector2.divideScalar, Vector2.negate,
    Ray2.pointAtDistance, Vector2.plus, Vector2.timesScalar]

/-! ## Claims on rays that start inside or outside the circle -/

section InsideOutside

variable {K : Type} [LinearOrderedField K]

theorem Circle.shapeIntersection_of_pos (sqrt : K → K) (self : Circle K) (ray : Ray K)
    (hd : 0 < Circle.discriminant self ray) :
    Circle.shapeIntersection sqrt self (Ray2.mk ray.tail ray.directionUnitVector) =
      [some ⟨Circle.pointAt ray
          ((-Circle.quadB self ray - sqrt (Circle.discriminant self ray)) /
            (2 * Circle.quadA ray))⟩,
       some ⟨Circle.pointAt ray
          ((-Circle.quadB self ray + sqrt (Circle.discriminant self ray)) /
            (2 * Circle.quadA ray))⟩] := by
  rw [Circle.shapeIntersection_eq, if_neg (not_lt.2 hd.le), if_neg hd.ne']

theorem Circle.dot_pointAt_minus_center (self : Circle K) (ray : Ray K) (t : K) :
    ((Circle.pointAt ray t).minus self.center).dot ray.directionUnitVector =
      Circle.quadB self ray / 2 + t * Circle.quadA ray := by
  simp only [Circle.pointAt, Ray2.pointAtDistance, Circle.quadA, Circle.quadB, Vector2.dot,
    Vector2.minus, Vector2.plus, Vector2.timesScalar]
  ring

/-- The record pushed for a point of a circle of positive radius. -/
theorem Circle.intersectionAt_on_circle (sqrt : K → K) (hs : IsSqrt sqrt) (self : Circle K)
    (ray : Ray K) (hr : 0 < self.radius) (p : Vector2 K)
    (hon : (p.minus self.center).magnitudeSquared = self.radius * self.radius) :
    Vector2.magnitude sqrt (p.minus self.center) = self.radius ∧
    Circle.intersectionAt sqrt self ray p =
      ⟨if (p.minus self.center).dot ray.directionUnitVector > 0 then
          ((p.minus self.center).divideScalar self.radius).negate
        else (p.minus self.center).divideScalar self.radius, p⟩ := by
  have hmag : Vector2.magnitude sqrt (p.minus self.center) = self.radius := by
    unfold Vector2.magnitude
    rw [hon]
    exact hs.sqrt_mul_self hr.le
  refine ⟨hmag, ?_⟩
  simp only [Circle.intersectionAt, hmag, Vector2.dot_divideScalar]
  by_cases hpos : (p.minus self.center).dot ray.directionUnitVector > 0
  · rw [if_pos hpos, if_pos (div_pos hpos hr)]
  · rw [if_neg hpos, if_neg (not_lt.2 (div_nonpos_of_nonpos_of_nonneg (not_lt.1 hpos) hr.le))]

/-- The two roots of the quadratic for a unit direction and a positive discriminant:
both points are on the circle, and the dot products of `point − center` with the
direction are `-s/2` and `s/2`, where `s` is the root of the discriminant. -/
theorem Circle.roots_of_unit (sqrt : K → K) (hs : IsSqrt sqrt) (self : Circle K) (ray : Ray K)
    (hunit : ray.directionUnitVector.magnitudeSquared = 1)
    (hd : 0 < Circle.discriminant self ray) (t1 t2 : K)
    (ht1 : (-Circle.quadB self ray - sqrt (Circle.discriminant self ray)) /
      (2 * Circle.quadA ray) = t1)
    (ht2 : (-Circle.quadB self ray + sqrt (Circle.discriminant self ray)) /
      (2 * Circle.quadA ray) = t2) :
    2 * t1 = -Circle.quadB self ray - sqrt (Circle.discriminant self ray) ∧
    2 * t2 = -Circle.quadB self ray + sqrt (Circle.discriminant self ray) ∧
    ((Circle.pointAt ray t1).minus self.center).magnitudeSquared = self.radius * self.radius ∧
    ((Circle.pointAt ray t2).minus self.center).magnitudeSquared = self.radius * self.radius ∧
    ((Circle.pointAt ray t1).minus self.center).dot ray.directionUnitVector =
      -(sqrt (Circle.discriminant self ray) / 2) ∧
    ((Circle.pointAt ray t2).minus self.center).dot ray.directionUnitVector =
      sqrt (Circle.discriminant self ray) / 2 := by
  have ha : Circle.quadA ray = 1 := hunit
  have ha0 : Circle.quadA ray ≠ 0 := by rw [ha]; exact one_ne_zero
  have hss := hs.mul_self hd.le
  have e1 : 2 * t1 = -Circle.quadB self ray - sqrt (Circle.discriminant self ray) := by
    rw [← ht1, ha]; field_simp
  have e2 : 2 * t2 = -Circle.quadB self ray + sqrt (Circle.discriminant self ray) := by
    rw [← ht2, ha]; field_simp
  have q1 := Circle.quad_root ha0 (c := Circle.quadC self ray) hss (Or.inl ht1.symm)
  have q2 := Circle.quad_root ha0 (c := Circle.quadC self ray) hss (Or.inr ht2.symm)
  have p1 := Circle.pointAt_on_circle self ray t1
  have p2 := Circle.pointAt_on_circle self ray t2
  refine ⟨e1, e2, by linarith, by linarith, ?_, ?_⟩
  · rw [Circle.dot_pointAt_minus_center, ha]; linarith
  · rw [Circle.dot_pointAt_minus_center, ha]; linarith

/-- C19: for a circle of radius `r > 0` and a ray of unit direction whose tail is
strictly inside the circle, `getIntersections` returns exactly one intersection; its
point is at distance `r` from the center and its normal is `−(point − center) / r`. -/
theorem Circle.getIntersections_tail_inside (sqrt : K → K) (hs : IsSqrt sqrt) (self : Circle K)
    (ray : Ray K) (hr : 0 < self.radius)
    (hunit : ray.directionUnitVector.magnitudeSquared = 1)
    (hin : Vector2.distance sqrt ray.tail self.center < self.radius) :
    ∃ i : Intersection K, Circle.getIntersections sqrt self ray = .ok [i] ∧
      Vector2.distance sqrt i.point self.center = self.radius ∧
      i.unitNormal = ((i.point.minus self.center).divideScalar self.radius).negate := by
  have ha : Circle.quadA ray = 1 := hunit
  have hw := Vector2.magnitudeSquared_nonneg (ray.tail.minus self.center)
  have hc : Circle.quadC self ray < 0 := by
    have hlt := mul_self_lt_mul_self (hs.nonneg hw) hin
    have hsq := hs.mul_self hw
    unfold Circle.quadC
    linarith
  have hd : 0 < Circle.discriminant self ray := by
    unfold Circle.discriminant
    rw [ha]
    nlinarith [mul_self_nonneg (Circle.quadB self ray)]
  have hspos := hs.pos hd
  have hss := hs.mul_self hd.le
  have hbs : Circle.quadB self ray * Circle.quadB self ray <
      sqrt (Circle.discriminant self ray) * sqrt (Circle.discriminant self ray) := by
    rw [hss]
    unfold Circle.discriminant
    rw [ha]
    linarith
  have hlt1 : Circle.quadB self ray < sqrt (Circle.discriminant self ray) := by
    by_contra hcon
    have := mul_self_le_mul_self hspos.le (not_lt.1 hcon)
    linarith
  have hlt2 : -Circle.quadB self ray < sqrt (Circle.discriminant self ray) := by
    by_contra hcon
    have := mul_self_le_mul_self hspos.le (not_lt.1 hcon)
    linarith [neg_mul_neg (Circle.quadB self ray) (Circle.quadB self ray)]
  obtain ⟨t1, ht1⟩ : ∃ t, (-Circle.quadB self ray - sqrt (Circle.discriminant self ray)) /
      (2 * Circle.quadA ray) = t := ⟨_, rfl⟩
  obtain ⟨t2, ht2⟩ : ∃ t, (-Circle.quadB self ray + sqrt (Circle.discriminant self ray)) /
      (2 * Circle.quadA ray) = t := ⟨_, rfl⟩
  obtain ⟨e1, e2, -, on2, -, d2⟩ := Circle.roots_of_unit sqrt hs self ray hunit hd t1 t2 ht1 ht2
  have hA1 : ¬ Circle.isAhead ray (Circle.pointAt ray t1) := by
    rw [Circle.isAhead_pointAt, ha]; linarith
  have hA2 : Circle.isAhead ray (Circle.pointAt ray t2) := by
    rw [Circle.isAhead_pointAt, ha]; linarith
  have hk : Circle.keptPoints ray
      (Circle.shapeIntersection sqrt self (Ray2.mk ray.tail ray.directionUnitVector)) =
      [Circle.pointAt ray t2] := by
    rw [Circle.shapeIntersection_of_pos sqrt self ray hd, ht1, ht2,
      Circle.keptPoints_some_behind ray ⟨Circle.pointAt ray t1⟩ _ hA1,
      Circle.keptPoints_some_ahead ray ⟨Circle.pointAt ray t2⟩ _ hA2, Circle.keptPoints_nil]
  obtain ⟨hm2, hi2⟩ := Circle.intersectionAt_on_circle sqrt hs self ray hr _ on2
  refine ⟨Circle.intersectionAt sqrt self ray (Circle.pointAt ray t2), ?_, hm2, ?_⟩
  · unfold Circle.getIntersections
    rw [Circle.getIntersectionsFrom_ok_iff, hk]
    refine ⟨fun p hp => ?_, rfl⟩
    rw [List.mem_singleton.1 hp, hm2]
    exact hr.ne'
  · rw [hi2]
    simp only
    rw [if_pos (by rw [d2]; linarith)]

theorem Circle.getIntersections_tail_inside_witness :
    ∃ i : Intersection ℝ,
      Circle.getIntersections Real.sqrt (⟨⟨0, 0⟩, 1⟩ : Circle ℝ) ⟨⟨0, 0⟩, ⟨1, 0⟩⟩ = .ok [i] ∧
      Vector2.distance Real.sqrt i.point (⟨0, 0⟩ : Vector2 ℝ) = 1 ∧
      i.unitNormal = ((i.point.minus (⟨0, 0⟩ : Vector2 ℝ)).divideScalar 1).negate :=
  Circle.getIntersections_tail_inside Real.sqrt isSqrt_real ⟨⟨0, 0⟩, 1⟩ ⟨⟨0, 0⟩, ⟨1, 0⟩⟩
    (by norm_num) (by norm_num [Vector2.magnitudeSquared])
    (by norm_num [Vector2.distance, Vector2.magnitude, Vector2.magnitudeSquared, Vector2.minus])

/-- C20: for a circle of radius `r > 0` and a ray of unit direction whose tail is
strictly outside the circle, whose line passes at distance less than `r` from the
center (for a unit direction, the squared cross product of the direction with
`tail − center` is below `r²`) and for which the center is ahead of the tail,
`getIntersections` returns exactly two intersections, the nearer one first: both
points are at distance `r` from the center, the nearer one has the normal
`(point − center) / r` and the farther one the normal `−(point − center) / r`. -/
theorem Circle.getIntersections_tail_outside (sqrt : K → K) (hs : IsSqrt sqrt) (self : Circle K)
    (ray : Ray K) (hr : 0 < self.radius)
    (hunit : ray.directionUnitVector.magnitudeSquared = 1)
    (hout : self.radius < Vector2.distance sqrt ray.tail self.center)
    (hnear : (ray.directionUnitVector.x * (ray.tail.y - self.center.y) -
      ray.directionUnitVector.y * (ray.tail.x - self.center.x)) ^ 2 <
        self.radius * self.radius)
    (hahead : (self.center.minus ray.tail).dot ray.directionUnitVector > 0) :
    ∃ i j : Intersection K, Circle.getIntersections sqrt self ray = .ok [i, j] ∧
      Vector2.distance sqrt i.point ray.tail < Vector2.distance sqrt j.point ray.tail ∧
      Vector2.distance sqrt i.point self.center = self.radius ∧
      Vector2.distance sqrt j.point self.center = self.radius ∧
      i.unitNormal = (i.point.minus self.center).divideScalar self.radius ∧
      j.unitNormal = ((j.point.minus self.center).divideScalar self.radius).negate := by
  have ha : Circle.quadA ray = 1 := hunit
  have hw := Vector2.magnitudeSquared_nonneg (ray.tail.minus self.center)
  have hc : 0 < Circle.quadC self ray := by
    have hlt := mul_self_lt_mul_self hr.le hout
    have hsq := hs.mul_self hw
    unfold Circle.quadC
    unfold Vector2.distance Vector2.magnitude at hlt
    linarith
  have hb : Circle.quadB self ray < 0 := by
    have e : Circle.quadB self ray =
        -(2 * (self.center.minus ray.tail).dot ray.directionUnitVector) := by
      simp only [Circle.quadB, Vector2.dot, Vector2.minus]
      ring
    rw [e]
    linarith
  have hd : 0 < Circle.discriminant self ray := by
    rw [Circle.discriminant_eq, hunit]
    linarith
  have hspos := hs.pos hd
  have hss := hs.mul_self hd.le
  have hsb : sqrt (Circle.discriminant self ray) < -Circle.quadB self ray := by
    by_contra hcon
    have h1 := mul_self_le_mul_self (by linarith : (0 : K) ≤ -Circle.quadB self ray)
      (not_lt.1 hcon)
    have h2 : Circle.discriminant self ray =
        Circle.quadB self ray * Circle.quadB self ray - 4 * Circle.quadC self ray := by
      unfold Circle.discriminant
      rw [ha]
      ring
    linarith [neg_mul_neg (Circle.quadB self ray) (Circle.quadB self ray)]
  obtain ⟨t1, ht1⟩ : ∃ t, (-Circle.quadB self ray - sqrt (Circle.discriminant self ray)) /
      (2 * Circle.quadA ray) = t := ⟨_, rfl⟩
  obtain ⟨t2, ht2⟩ : ∃ t, (-Circle.quadB self ray + sqrt (Circle.discriminant self ray)) /
      (2 * Circle.quadA ray) = t := ⟨_, rfl⟩
  obtain ⟨e1, e2, on1, on2, d1, d2⟩ :=
    Circle.roots_of_unit sqrt hs self ray hunit hd t1 t2 ht1 ht2
  have hA1 : Circle.isAhead ray (Circle.pointAt ray t1) := by
    rw [Circle.isAhead_pointAt, ha]; linarith
  have hA2 : Circle.isAhead ray (Circle.pointAt ray t2) := by
    rw [Circle.isAhead_pointAt, ha]; linarith
  have hk : Circle.keptPoints ray
      (Circle.shapeIntersection sqrt self (Ray2.mk ray.tail ray.directionUnitVector)) =
      [Circle.pointAt ray t1, Circle.pointAt ray t2] := by
    rw [Circle.shapeIntersection_of_pos sqrt self ray hd, ht1, ht2,
      Circle.keptPoints_some_ahead ray ⟨Circle.pointAt ray t1⟩ _ hA1,
      Circle.keptPoints_some_ahead ray ⟨Circle.pointAt ray t2⟩ _ hA2, Circle.keptPoints_nil]
  have hpw := Circle.keptPoints_shape_pairwise sqrt hs self ray
  rw [hk] at hpw
  have hord := (List.pairwise_cons.1 hpw).1 _ (List.mem_singleton.2 rfl)
  obtain ⟨hm1, hi1⟩ := Circle.intersectionAt_on_circle sqrt hs self ray hr _ on1
  obtain ⟨hm2, hi2⟩ := Circle.intersectionAt_on_circle sqrt hs self ray hr _ on2
  refine ⟨Circle.intersectionAt sqrt self ray (Circle.pointAt ray t1),
    Circle.intersectionAt sqrt self ray (Circle.pointAt ray t2), ?_, hord, hm1, hm2, ?_, ?_⟩
  · unfold Circle.getIntersections
    rw [Circle.getIntersectionsFrom_ok_iff, hk]
    refine ⟨fun p hp => ?_, rfl⟩
    rcases List.mem_cons.1 hp with h | h
    · rw [h, hm1]; exact hr.ne'
    · rw [List.mem_singleton.1 h, hm2]; exact hr.ne'
  · rw [hi1]
    simp only
    rw [if_neg (by rw [d1]; linarith)]
  · rw [hi2]
    simp only
    rw [if_pos (by rw [d2]; linarith)]

theorem Circle.getIntersections_tail_outside_witness :
    ∃ i j : Intersection ℝ,
      Circle.getIntersections Real.sqrt (⟨⟨0, 0⟩, 1⟩ : Circle ℝ) ⟨⟨-2, 0⟩, ⟨1, 0⟩⟩ =
        .ok [i, j] ∧
      Vector2.distance Real.sqrt i.point (⟨-2, 0⟩ : Vector2 ℝ) <
        Vector2.distance Real.sqrt j.point (⟨-2, 0⟩ : Vector2 ℝ) ∧
      Vector2.distance Real.sqrt i.point (⟨0, 0⟩ : Vector2 ℝ) = 1 ∧
      Vector2.distance Real.sqrt j.point (⟨0, 0⟩ : Vector2 ℝ) = 1 ∧
      i.unitNormal = (i.point.minus (⟨0, 0⟩ : Vector2 ℝ)).divideScalar 1 ∧
      j.unitNormal = ((j.point.minus (⟨0, 0⟩ : Vector2 ℝ)).divideScalar 1).negate :=
  Circle.getIntersections_tail_outside Real.sqrt isSqrt_real ⟨⟨0, 0⟩, 1⟩ ⟨⟨-2, 0⟩, ⟨1, 0⟩⟩
    (by norm_num) (by norm_num [Vector2.magnitudeSquared])
    (by
      have h4 : Real.sqrt 4 = 2 := real_sqrt_four
      norm_num [Vector2.distance, Vector2.magnitude, Vector2.magnitudeSquared, Vector2.minus,
        h4])
    (by norm_num)
    (by norm_num [Vector2.dot, Vector2.minus])

end InsideOutside

/-! ## Claims on the methods that return a new circle -/

theorem Heap.write_vec_same {K : Type} (h : Heap K) (ref : ℕ) (v : Vector2 K) :
    (h.write ref v).vec ref = v := by
  simp [Heap.write]

theorem Heap.write_vec_other {K : Type} (h : Heap K) (ref other : ℕ) (v : Vector2 K)
    (hne : other ≠ ref) : (h.write ref v).vec other = h.vec other := by
  simp [Heap.write, Function.update_noteq hne]

section ObjectClaims

variable {K : Type} [LinearOrderedField K]

/-- C15: `getTranslatedInstance( deltaX, deltaY )` on an existing circle returns a
circle with a new center object at `(center.x + deltaX, center.y + deltaY)` and the
same radius, and leaves every existing vector, so the receiver's center, and the
receiver's radius as they were. -/
theorem CircleObject.getTranslatedInstance_new_circle (h : Heap K) (self : CircleObject K)
    (deltaX deltaY : K) (hself : self.center < h.next) :
    (self.getTranslatedInstance h deltaX deltaY).2.value
        (self.getTranslatedInstance h deltaX deltaY).1 =
      ⟨⟨(h.vec self.center).x + deltaX, (h.vec self.center).y + deltaY⟩, self.radius⟩ ∧
    (self.getTranslatedInstance h deltaX deltaY).2.value
        (self.getTranslatedInstance h deltaX deltaY).1 =
      (self.value h).getTranslatedInstance deltaX deltaY ∧
    (self.getTranslatedInstance h deltaX deltaY).2.center ≠ self.center ∧
    self.value (self.getTranslatedInstance h deltaX deltaY).1 = self.value h ∧
    ∀ ref, ref < h.next → (self.getTranslatedInstance h deltaX deltaY).1.vec ref = h.vec ref := by
  have hframe : ∀ ref, ref < h.next →
      (self.getTranslatedInstance h deltaX deltaY).1.vec ref = h.vec ref := by
    intro ref href
    simp [CircleObject.getTranslatedInstance, Heap.plusXY, Heap.alloc,
      Function.update_noteq href.ne]
  refine ⟨?_, ?_, ?_, ?_, hframe⟩
  · simp [CircleObject.getTranslatedInstance, Heap.plusXY, Heap.alloc, CircleObject.value,
      Vector2.plusXY]
  · simp [CircleObject.getTranslatedInstance, Heap.plusXY, Heap.alloc, CircleObject.value,
      Circle.getTranslatedInstance]
  · simp only [CircleObject.getTranslatedInstance, Heap.plusXY, Heap.alloc]
    exact hself.ne'
  · simp only [CircleObject.value, hframe self.center hself]

theorem CircleObject.getTranslatedInstance_new_circle_witness :
    (CircleObject.getTranslatedInstance (⟨fun _ => ⟨1, 2⟩, 1⟩ : Heap ℚ) ⟨0, 5⟩ 3 4).2.value
        (CircleObject.getTranslatedInstance (⟨fun _ => ⟨1, 2⟩, 1⟩ : Heap ℚ) ⟨0, 5⟩ 3 4).1 =
      ⟨⟨1 + 3, 2 + 4⟩, 5⟩ ∧
    CircleObject.value
        (CircleObject.getTranslatedInstance (⟨fun _ => ⟨1, 2⟩, 1⟩ : Heap ℚ) ⟨0, 5⟩ 3 4).1
        (⟨0, 5⟩ : CircleObject ℚ) =
      CircleObject.value (⟨fun _ => ⟨1, 2⟩, 1⟩ : Heap ℚ) ⟨0, 5⟩ :=
  ⟨(CircleObject.getTranslatedInstance_new_circle (⟨fun _ => ⟨1, 2⟩, 1⟩ : Heap ℚ) ⟨0, 5⟩ 3 4
      (by decide)).1,
    (CircleObject.getTranslatedInstance_new_circle (⟨fun _ => ⟨1, 2⟩, 1⟩ : Heap ℚ) ⟨0, 5⟩ 3 4
      (by decide)).2.2.2.1⟩

/-- What `getRotatedInstance` does to the store: the receiver's own center object is
overwritten, and the returned circle shares it. With a `rotationPoint` that is another
object, that object holds `rotationPoint + R(angle) · (center − rotationPoint)`
afterwards; with the center object itself as `rotationPoint` it holds `(0, 0)`. -/
theorem CircleObject.getRotatedInstance_effect (cos sin : K → K) (h : Heap K)
    (self : CircleObject K) (angle : K) (rotationPoint : ℕ) :
    (self.getRotatedInstance cos sin h angle rotationPoint).2 = self ∧
    (rotationPoint ≠ self.center →
      (self.getRotatedInstance cos sin h angle rotationPoint).1.vec self.center =
        (((h.vec self.center).minus (h.vec rotationPoint)).rotated cos sin angle).plus
          (h.vec rotationPoint)) ∧
    (rotationPoint = self.center →
      (self.getRotatedInstance cos sin h angle rotationPoint).1.vec self.center = ⟨0, 0⟩) := by
  refine ⟨rfl, fun hne => ?_, fun heq => ?_⟩
  · simp only [CircleObject.getRotatedInstance, CircleObject.getRotationCenter, Heap.subtract,
      Heap.rotate, Heap.add, Heap.write_vec_same, Heap.write_vec_other _ _ _ _ hne]
  · subst heq
    simp only [CircleObject.getRotatedInstance, CircleObject.getRotationCenter, Heap.subtract,
      Heap.rotate, Heap.add, Heap.write_vec_same, Vector2.minus, Vector2.rotated, Vector2.plus,
      Vector2.ext_iff]
    constructor <;> ring

/-- C14 at the rotation point `getRotationCenter()` returns: for the circle about
`(3, 4)` with radius 1, `getRotatedInstance( 0, this.getRotationCenter() )` returns a
circle about `(0, 0)`, where the claim's
`rotationPoint + R(angle) · (center − rotationPoint)` is `(3, 4)`. -/
theorem CircleObject.getRotatedInstance_about_own_center_object :
    (CircleObject.getRotatedInstance Real.cos Real.sin (⟨fun _ => ⟨3, 4⟩, 1⟩ : Heap ℝ) ⟨0, 1⟩ 0
        (CircleObject.getRotationCenter (⟨0, 1⟩ : CircleObject ℝ))).2.value
      (CircleObject.getRotatedInstance Real.cos Real.sin (⟨fun _ => ⟨3, 4⟩, 1⟩ : Heap ℝ) ⟨0, 1⟩ 0
        (CircleObject.getRotationCenter (⟨0, 1⟩ : CircleObject ℝ))).1 =
      ⟨⟨0, 0⟩, 1⟩ ∧
    (Vector2.rotated Real.cos Real.sin ((⟨3, 4⟩ : Vector2 ℝ).minus ⟨3, 4⟩) 0).plus ⟨3, 4⟩ =
      (⟨3, 4⟩ : Vector2 ℝ) := by
  constructor
  · simp [CircleObject.getRotatedInstance, CircleObject.getRotationCenter, Heap.subtract,
      Heap.rotate, Heap.add, Heap.write, CircleObject.value, Vector2.minus, Vector2.rotated,
      Vector2.plus]
  · simp [Vector2.minus, Vector2.rotated, Vector2.plus]

/-- C16 at a half turn: for the circle whose center object holds `(1, 0)` and a
rotation point object holding `(0, 0)`, after `getRotatedInstance( π, rotationPoint )`
the receiver's center is `(-1, 0)`. -/
theorem CircleObject.getRotatedInstance_mutates_receiver :
    CircleObject.value (⟨fun ref => if ref = 0 then ⟨1, 0⟩ else ⟨0, 0⟩, 2⟩ : Heap ℝ)
        (⟨0, 1⟩ : CircleObject ℝ) = ⟨⟨1, 0⟩, 1⟩ ∧
    CircleObject.value
        (CircleObject.getRotatedInstance Real.cos Real.sin
          (⟨fun ref => if ref = 0 then ⟨1, 0⟩ else ⟨0, 0⟩, 2⟩ : Heap ℝ) ⟨0, 1⟩ Real.pi 1).1
        (⟨0, 1⟩ : CircleObject ℝ) = ⟨⟨-1, 0⟩, 1⟩ := by
  constructor
  · simp [CircleObject.value]
  · simp [CircleObject.getRotatedInstance, CircleObject.getRotationCenter, Heap.subtract,
      Heap.rotate, Heap.add, Heap.write, CircleObject.value, Vector2.minus, Vector2.rotated,
      Vector2.plus]

end ObjectClaims

/-! ## Translation of the circle and the ray together -/

section TranslationClaims

variable {K : Type} [LinearOrderedField K]

theorem Vector2.plusXY_minus_plusXY (a b : Vector2 K) (dx dy : K) :
    (a.plusXY dx dy).minus (b.plusXY dx dy) = a.minus b := by
  simp [Vector2.minus, Vector2.plusXY]

/-- The loop of lines 56-71 commutes with the translation: on the translated circle,
the translated ray and the translated array it pushes the translated intersections
and throws in the same cases. -/
theorem Circle.getIntersectionsLoop_translated (sqrt : K → K) (self : Circle K) (ray : Ray K)
    (dx dy : K) (arr : List (Option (RayIntersection K))) (acc : List (Intersection K)) :
    Circle.getIntersectionsLoop sqrt (self.getTranslatedInstance dx dy) (ray.translated dx dy)
        (arr.map (Option.map (fun ip => ip.translated dx dy)))
        (acc.map (fun i => i.translated dx dy)) =
      (Circle.getIntersectionsLoop sqrt self ray arr acc).map
        (List.map (fun i => i.translated dx dy)) := by
  induction arr generalizing acc with
  | nil => rfl
  | cons head rest ih =>
    cases head with
    | none =>
      simp only [List.map_cons, Option.map_none', Circle.getIntersectionsLoop]
      exact ih acc
    | some ip =>
      have hcond : ((ip.translated dx dy).point.x - (ray.translated dx dy).tail.x) *
            (ray.translated dx dy).directionUnitVector.x +
          ((ip.translated dx dy).point.y - (ray.translated dx dy).tail.y) *
            (ray.translated dx dy).directionUnitVector.y =
          (ip.point.x - ray.tail.x) * ray.directionUnitVector.x +
            (ip.point.y - ray.tail.y) * ray.directionUnitVector.y := by
        simp [RayIntersection.translated, Ray.translated, Vector2.plusXY]
      have hminus : (ip.translated dx dy).point.minus (self.getTranslatedInstance dx dy).center =
          ip.point.minus self.center :=
        Vector2.plusXY_minus_plusXY ip.point self.center dx dy
      simp only [List.map_cons, Option.map_some', Circle.getIntersectionsLoop, hcond, hminus]
      by_cases hA : (ip.point.x - ray.tail.x) * ray.directionUnitVector.x +
          (ip.point.y - ray.tail.y) * ray.directionUnitVector.y > 0
      · rw [if_pos hA, if_pos hA]
        cases hn : (ip.point.minus self.center).normalize sqrt with
        | error e => rfl
        | ok normalVector =>
          simp only []
          have := ih (acc ++ [Intersection.mk
            (if normalVector.dot ray.directionUnitVector > 0 then normalVector.negate
              else normalVector) ip.point])
          rw [List.map_append] at this
          exact this
      · rw [if_neg hA, if_neg hA]
        exact ih acc

/-- The modelled shape intersection commutes with the translation. -/
theorem Circle.shapeIntersection_translated (sqrt : K → K) (self : Circle K) (ray : Ray K)
    (dx dy : K) :
    Circle.shapeIntersection sqrt (self.getTranslatedInstance dx dy)
        (Ray2.mk (ray.translated dx dy).tail (ray.translated dx dy).directionUnitVector) =
      (Circle.shapeIntersection sqrt self (Ray2.mk ray.tail ray.directionUnitVector)).map
        (Option.map (fun ip => ip.translated dx dy)) := by
  have hB : Circle.quadB (self.getTranslatedInstance dx dy) (ray.translated dx dy) =
      Circle.quadB self ray := by
    simp only [Circle.quadB, Circle.getTranslatedInstance, Ray.translated,
      Vector2.plusXY_minus_plusXY]
  have hC : Circle.quadC (self.getTranslatedInstance dx dy) (ray.translated dx dy) =
      Circle.quadC self ray := by
    simp only [Circle.quadC, Circle.getTranslatedInstance, Ray.translated,
      Vector2.plusXY_minus_plusXY]
  have hA : Circle.quadA (ray.translated dx dy) = Circle.quadA ray := rfl
  have hD : Circle.discriminant (self.getTranslatedInstance dx dy) (ray.translated dx dy) =
      Circle.discriminant self ray := by
    simp only [Circle.discriminant, hA, hB, hC]
  have hP : ∀ t : K, Circle.pointAt (ray.translated dx dy) t =
      (Circle.pointAt ray t).plusXY dx dy := by
    intro t
    simp only [Circle.pointAt, Ray2.pointAtDistance, Ray.translated, Vector2.plusXY,
      Vector2.plus, Vector2.timesScalar, Vector2.ext_iff]
    constructor <;> ring
  rw [Circle.shapeIntersection_eq, Circle.shapeIntersection_eq, hD, hA, hB]
  by_cases h1 : Circle.discriminant self ray < 0
  · rw [if_pos h1, if_pos h1]; rfl
  · rw [if_neg h1, if_neg h1]
    by_cases h2 : Circle.discriminant self ray = 0
    · rw [if_pos h2, if_pos h2]
      simp [hP, RayIntersection.translated]
    · rw [if_neg h2, if_neg h2]
      simp [hP, RayIntersection.translated]

/-- C21: intersection is translation-covariant. For every delivered array, the loop on
the translated circle, the ray with the shifted tail and the shifted array returns the
intersections of the original call with every point shifted by `(dx, dy)` and every
normal unchanged, in the same order (and throws exactly when the original call
throws); with the shape intersection of the spec, so does `getIntersections` on
`getTranslatedInstance( dx, dy )` and the ray with the shifted tail. -/
theorem Circle.getIntersections_translated (sqrt : K → K) (self : Circle K) (ray : Ray K)
    (dx dy : K) :
    (∀ intersectionArray : List (Option (RayIntersection K)),
      Circle.getIntersectionsFrom sqrt (self.getTranslatedInstance dx dy) (ray.translated dx dy)
          (intersectionArray.map (Option.map (fun ip => ip.translated dx dy))) =
        (Circle.getIntersectionsFrom sqrt self ray intersectionArray).map
          (List.map (fun i => i.translated dx dy))) ∧
    Circle.getIntersections sqrt (self.getTranslatedInstance dx dy) (ray.translated dx dy) =
      (Circle.getIntersections sqrt self ray).map (List.map (fun i => i.translated dx dy)) := by
  have hfrom : ∀ intersectionArray : List (Option (RayIntersection K)),
      Circle.getIntersectionsFrom sqrt (self.getTranslatedInstance dx dy) (ray.translated dx dy)
          (intersectionArray.map (Option.map (fun ip => ip.translated dx dy))) =
        (Circle.getIntersectionsFrom sqrt self ray intersectionArray).map
          (List.map (fun i => i.translated dx dy)) := fun arr =>
    Circle.getIntersectionsLoop_translated sqrt self ray dx dy arr []
  refine ⟨hfrom, ?_⟩
  unfold Circle.getIntersections
  rw [Circle.shapeIntersection_translated]
  exact hfrom _

theorem Circle.getIntersections_translated_example :
    Circle.getIntersections Real.sqrt
        ((⟨⟨0, 0⟩, 1⟩ : Circle ℝ).getTranslatedInstance 3 4)
        ((⟨⟨-2, 0⟩, ⟨1, 0⟩⟩ : Ray ℝ).translated 3 4) =
      .ok [⟨⟨-1, 0⟩, (⟨-1, 0⟩ : Vector2 ℝ).plusXY 3 4⟩,
        ⟨⟨-1, 0⟩, (⟨1, 0⟩ : Vector2 ℝ).plusXY 3 4⟩] := by
  rw [(Circle.getIntersections_translated Real.sqrt ⟨⟨0, 0⟩, 1⟩ ⟨⟨-2, 0⟩, ⟨1, 0⟩⟩ 3 4).2,
    example_two_crossings]
  rfl

end TranslationClaims

/-! ## Rotation about a point -/

section RotationClaims

variable {K : Type} [LinearOrderedField K]

theorem Vector2.magnitudeSquared_rotated (cos sin : K → K) (v : Vector2 K) (angle : K)
    (htrig : cos angle * cos angle + sin angle * sin angle = 1) :
    (v.rotated cos sin angle).magnitudeSquared = v.magnitudeSquared := by
  simp only [Vector2.rotated, Vector2.magnitudeSquared]
  linear_combination (v.x * v.x + v.y * v.y) * htrig

theorem Vector2.plus_minus_cancel (a b : Vector2 K) : (a.plus b).minus b = a := by
  simp [Vector2.plus, Vector2.minus]

/-- With a rotation point that is another object than the circle's center,
`getRotatedInstance` is a rigid motion about it: the rotation point keeps its value,
the radius is kept, the returned center is as far from the rotation point as the
center was before the call, and a rotation by an angle with cosine 1 and sine 0, or
about a point where the center is, returns the center and radius of before. -/
theorem CircleObject.getRotatedInstance_rigid (cos sin sqrt : K → K) (h : Heap K)
    (self : CircleObject K) (angle : K) (rotationPoint : ℕ)
    (hne : rotationPoint ≠ self.center)
    (htrig : cos angle * cos angle + sin angle * sin angle = 1) :
    (self.getRotatedInstance cos sin h angle rotationPoint).1.vec rotationPoint =
      h.vec rotationPoint ∧
    ((self.getRotatedInstance cos sin h angle rotationPoint).2.value
      (self.getRotatedInstance cos sin h angle rotationPoint).1).radius = self.radius ∧
    Vector2.distance sqrt
        ((self.getRotatedInstance cos sin h angle rotationPoint).2.value
          (self.getRotatedInstance cos sin h angle rotationPoint).1).center
        (h.vec rotationPoint) =
      Vector2.distance sqrt (h.vec self.center) (h.vec rotationPoint) ∧
    (cos angle = 1 → sin angle = 0 →
      (self.getRotatedInstance cos sin h angle rotationPoint).2.value
        (self.getRotatedInstance cos sin h angle rotationPoint).1 = self.value h) ∧
    (h.vec rotationPoint = h.vec self.center →
      (self.getRotatedInstance cos sin h angle rotationPoint).2.value
        (self.getRotatedInstance cos sin h angle rotationPoint).1 = self.value h) := by
  obtain ⟨hret, hc, -⟩ := CircleObject.getRotatedInstance_effect cos sin h self angle
    rotationPoint
  have hc := hc hne
  have hval : (self.getRotatedInstance cos sin h angle rotationPoint).2.value
      (self.getRotatedInstance cos sin h angle rotationPoint).1 =
      ⟨(((h.vec self.center).minus (h.vec rotationPoint)).rotated cos sin angle).plus
        (h.vec rotationPoint), self.radius⟩ := by
    rw [hret]
    simp only [CircleObject.value, hc]
  refine ⟨?_, ?_, ?_, ?_, ?_⟩
  · simp only [CircleObject.getRotatedInstance, CircleObject.getRotationCenter, Heap.subtract,
      Heap.rotate, Heap.add, Heap.write_vec_other _ _ _ _ hne]
  · rw [hval]
  · rw [hval]
    simp only [Vector2.distance, Vector2.magnitude, Vector2.plus_minus_cancel,
      Vector2.magnitudeSquared_rotated cos sin _ angle htrig]
  · intro h1 h0
    rw [hval]
    simp only [CircleObject.value, Vector2.rotated, Vector2.minus, Vector2.plus, h1, h0,
      Circle.mk.injEq, Vector2.ext_iff, and_true]
    constructor <;> ring
  · intro heq
    rw [hval]
    simp only [CircleObject.value, Vector2.rotated, Vector2.minus, Vector2.plus, heq,
      Circle.mk.injEq, Vector2.ext_iff, and_true]
    constructor <;> ring

/-- C22 at the circle's own center object: for the circle whose center object holds
`(2, 0)`, with radius 5, `getRotatedInstance( π, this.center )` returns a circle about
`(0, 0)`, not about `(2, 0)`. -/
theorem CircleObject.getRotatedInstance_about_own_center_moves :
    CircleObject.value (⟨fun _ => ⟨2, 0⟩, 1⟩ : Heap ℝ) (⟨0, 5⟩ : CircleObject ℝ) =
      ⟨⟨2, 0⟩, 5⟩ ∧
    (CircleObject.getRotatedInstance Real.cos Real.sin (⟨fun _ => ⟨2, 0⟩, 1⟩ : Heap ℝ) ⟨0, 5⟩
        Real.pi (⟨0, 5⟩ : CircleObject ℝ).center).2.value
      (CircleObject.getRotatedInstance Real.cos Real.sin (⟨fun _ => ⟨2, 0⟩, 1⟩ : Heap ℝ) ⟨0, 5⟩
        Real.pi (⟨0, 5⟩ : CircleObject ℝ).center).1 =
      ⟨⟨0, 0⟩, 5⟩ := by
  constructor
  · simp [CircleObject.value]
  · simp [CircleObject.getRotatedInstance, CircleObject.getRotationCenter, Heap.subtract,
      Heap.rotate, Heap.add, Heap.write, CircleObject.value, Vector2.minus, Vector2.rotated,
      Vector2.plus]

end RotationClaims

/-! ## Claims on the layout of the wave layer -/

section WaveClaims

variable {K : Type} [LinearOrderedField K]

/-- C23: for positive window sizes `W`, `H` and layout sizes `lw`, `lh`, with
`nav = 40 · min(W/lw, H/lh)`, `screenHeight = H − nav` and
`scale = min(W/lw, screenHeight/lh)`, the scaled layout fits (`lw · scale ≤ W` and
`lh · scale ≤ screenHeight`), both offsets are non-negative with `heightOffset ≥ nav`,
and in both branches `2 · widthOffset + lw · scale = W` and
`2 · (heightOffset − nav) + lh · scale = screenHeight`. -/
theorem WaveWebGLNode.layout_centers (W H lw lh : K) (hW : 0 < W) (hH : 0 < H) (hlw : 0 < lw)
    (hlh : 0 < lh) :
    (WaveWebGLNode.layout W H lw lh).navigationBarHeightInWindowCoordinates =
      40 * min (W / lw) (H / lh) ∧
    (WaveWebGLNode.layout W H lw lh).screenHeight =
      H - (WaveWebGLNode.layout W H lw lh).navigationBarHeightInWindowCoordinates ∧
    (WaveWebGLNode.layout W H lw lh).scale =
      min (W / lw) ((WaveWebGLNode.layout W H lw lh).screenHeight / lh) ∧
    lw * (WaveWebGLNode.layout W H lw lh).scale ≤ W ∧
    lh * (WaveWebGLNode.layout W H lw lh).scale ≤ (WaveWebGLNode.layout W H lw lh).screenHeight ∧
    0 ≤ (WaveWebGLNode.layout W H lw lh).widthOffset ∧
    0 ≤ (WaveWebGLNode.layout W H lw lh).heightOffset ∧
    (WaveWebGLNode.layout W H lw lh).navigationBarHeightInWindowCoordinates ≤
      (WaveWebGLNode.layout W H lw lh).heightOffset ∧
    2 * (WaveWebGLNode.layout W H lw lh).widthOffset +
      lw * (WaveWebGLNode.layout W H lw lh).scale = W ∧
    2 * ((WaveWebGLNode.layout W H lw lh).heightOffset -
        (WaveWebGLNode.layout W H lw lh).navigationBarHeightInWindowCoordinates) +
      lh * (WaveWebGLNode.layout W H lw lh).scale =
        (WaveWebGLNode.layout W H lw lh).screenHeight := by
  have hnav : (0 : K) ≤ 40 * min (W / lw) (H / lh) :=
    mul_nonneg (by norm_num) (le_min (div_pos hW hlw).le (div_pos hH hlh).le)
  have h1 : lw * min (W / lw) ((H - 40 * min (W / lw) (H / lh)) / lh) ≤ W := by
    have := min_le_left (W / lw) ((H - 40 * min (W / lw) (H / lh)) / lh)
    rw [le_div_iff₀ hlw] at this
    linarith
  have h2 : lh * min (W / lw) ((H - 40 * min (W / lw) (H / lh)) / lh) ≤
      H - 40 * min (W / lw) (H / lh) := by
    have := min_le_right (W / lw) ((H - 40 * min (W / lw) (H / lh)) / lh)
    rw [le_div_iff₀ hlh] at this
    linarith
  by_cases hb : min (W / lw) ((H - 40 * min (W / lw) (H / lh)) / lh) = W / lw
  · have e : lw * min (W / lw) ((H - 40 * min (W / lw) (H / lh)) / lh) = W := by
      rw [hb]; field_simp
    simp only [WaveWebGLNode.layout, if_pos hb]
    refine ⟨trivial, trivial, trivial, h1, h2, le_refl _, ?_, ?_, ?_, ?_⟩
    · linarith
    · linarith
    · linarith
    · ring
  · have hs : min (W / lw) ((H - 40 * min (W / lw) (H / lh)) / lh) =
        (H - 40 * min (W / lw) (H / lh)) / lh := by
      rcases min_choice (W / lw) ((H - 40 * min (W / lw) (H / lh)) / lh) with h | h
      · exact absurd h hb
      · exact h
    have e : lh * min (W / lw) ((H - 40 * min (W / lw) (H / lh)) / lh) =
        H - 40 * min (W / lw) (H / lh) := by
      rw [hs]; field_simp
    simp only [WaveWebGLNode.layout, if_neg hb]
    refine ⟨trivial, trivial, trivial, h1, h2, ?_, hnav, le_refl _, ?_, ?_⟩
    · linarith
    · ring
    · linarith

theorem WaveWebGLNode.layout_centers_witness :
    2 * (WaveWebGLNode.layout (1000 : ℚ) 600 834 504).widthOffset +
      834 * (WaveWebGLNode.layout (1000 : ℚ) 600 834 504).scale = 1000 ∧
    2 * ((WaveWebGLNode.layout (1000 : ℚ) 600 834 504).heightOffset -
        (WaveWebGLNode.layout (1000 : ℚ) 600 834 504).navigationBarHeightInWindowCoordinates) +
      504 * (WaveWebGLNode.layout (1000 : ℚ) 600 834 504).scale =
        (WaveWebGLNode.layout (1000 : ℚ) 600 834 504).screenHeight :=
  (WaveWebGLNode.layout_centers (1000 : ℚ) 600 834 504 (by norm_num) (by norm_num)
    (by norm_num) (by norm_num)).2.2.2.2.2.2.2.2

end WaveClaims

end BendingLight
